import Mathlib

/-!
Verification development for the xk6-tempo load-generation engine.

Shallow embedding conventions, used uniformly below:
* Go `time.Duration` / nanosecond timestamps are `Int` (nanoseconds).
* Go `float64` arithmetic is modelled by exact rationals (`ℚ`); every Go
  conversion `int64(x)` / `time.Duration(x)` of a float is modelled by
  truncation toward zero (`ratTrunc`).  For the magnitudes exercised by the
  claims (well below 2^52) the float computations in the source are exact,
  so the rational model agrees with the binary one.
* Go's `math/rand` source is modelled by `Rng`: a tape of rational draws
  with a cursor.  `Float64` yields a value in `[0,1)`, `NormFloat64` an
  unconstrained rational, `Intn n` a value in `[0,n)`; each draw advances
  the cursor.  The tape abstracts the PRNG bit stream: a seeded source is a
  deterministic tape (`rngOfSeed`), and universally quantified theorems
  range over every tape, hence over every realisable draw sequence.
* Fallible Go functions return `Option`/`Except`; a Go `panic` is `none`.
-/

namespace XkTempo

/-- Go conversion of a float to an integer type truncates toward zero.
Written with `Rat.floor` so that it evaluates inside the kernel;
`ratTrunc_def` restates it with `Int.floor`/`Int.ceil`. -/
def ratTrunc (q : ℚ) : Int :=
  if 0 ≤ q then q.floor else -(-q).floor

/-! ## Random source model -/

/-- Deterministic stream of random draws: a tape of rationals and a cursor.
Models a `*rand.Rand` instance of Go's `math/rand`. -/
structure Rng where
  tape : Nat → ℚ
  idx : Nat

namespace Rng

/-- Fractional part, used to force tape values into `[0,1)`. -/
def frac (q : ℚ) : ℚ := q - ⌊q⌋

/-- Model of `rng.Float64()`: a draw in `[0,1)`. -/
def float64 (r : Rng) : ℚ × Rng :=
  (frac (r.tape r.idx), ⟨r.tape, r.idx + 1⟩)

/-- Model of `rng.NormFloat64()`: an unconstrained rational draw. -/
def normFloat64 (r : Rng) : ℚ × Rng :=
  (r.tape r.idx, ⟨r.tape, r.idx + 1⟩)

/-- Model of `rng.Intn n` for `n > 0`: a draw in `[0,n)`.  (Go panics for
`n ≤ 0`; the generator only calls it with positive literals, and the one
call site where the argument can be `0` — backoff jitter — is modelled
separately with an explicit panic case.) -/
def intn (r : Rng) (n : Nat) : Nat × Rng :=
  ((⌊r.tape r.idx⌋).natAbs % n, ⟨r.tape, r.idx + 1⟩)

end Rng

/-! ## Query workload configuration (pkg/tempo/config.go) -/

/-- Mirror of `TimeBucketConfig`. -/
structure TimeBucketConfig where
  name : String
  ageStart : String
  ageEnd : String
  weight : ℚ
  deriving Repr, DecidableEq

/-- Mirror of `PlanEntry`. -/
structure PlanEntry where
  queryName : String
  bucketName : String
  weight : ℚ
  deriving Repr, DecidableEq

/-- Mirror of `QueryDefinition` (the `options` map is irrelevant to every
claim and omitted). -/
structure QueryDefinition where
  name : String
  query : String
  limit : Int
  deriving Repr, DecidableEq

/-- Mirror of `QueryWorkloadConfig`. -/
structure QueryWorkloadConfig where
  targetQPS : ℚ
  burstMultiplier : ℚ
  qpsMultiplier : ℚ
  enableBackoff : Bool
  minBackoffMs : Int
  maxBackoffMs : Int
  backoffJitter : Bool
  timeBuckets : List TimeBucketConfig
  executionPlan : List PlanEntry
  traceFetchProbability : ℚ
  timeWindowJitterMs : Int
  deriving Repr

/-- Mirror of `DefaultQueryWorkloadConfig`. -/
def DefaultQueryWorkloadConfig : QueryWorkloadConfig where
  targetQPS := 10
  burstMultiplier := 2
  qpsMultiplier := 1
  enableBackoff := true
  minBackoffMs := 200
  maxBackoffMs := 30000
  backoffJitter := true
  traceFetchProbability := 1/10
  timeWindowJitterMs := 0
  timeBuckets := [⟨"recent", "0m", "1h", 1⟩]
  executionPlan := [⟨"default", "recent", 1⟩]

/-! ## Integer parsing (model of strconv.Atoi / strconv.ParseInt base 10) -/

/-- Value of a decimal digit character, `none` for a non-digit. -/
def digitVal (c : Char) : Option Nat :=
  if '0' ≤ c ∧ c ≤ '9' then some (c.toNat - 48) else none

/-- Accumulating decimal parse of a digit run; `none` on a non-digit. -/
def parseDecDigits : Nat → List Char → Option Nat
  | acc, [] => some acc
  | acc, c :: cs =>
    match digitVal c with
    | some d => parseDecDigits (acc * 10 + d) cs
    | none => none

/-- Unsigned part of `goParseInt64`: a non-empty digit run with the signed
64-bit range check. -/
def goParseInt64Core (cs : List Char) (neg : Bool) : Option Int :=
  match cs with
  | [] => none
  | _ :: _ =>
    match parseDecDigits 0 cs with
    | none => none
    | some v =>
      if neg then
        if (v : Int) ≤ 2 ^ 63 then some (-(v : Int)) else none
      else
        if (v : Int) ≤ 2 ^ 63 - 1 then some (v : Int) else none

/-- Model of `strconv.ParseInt(s, 10, 64)` (hence of `strconv.Atoi` on a
64-bit platform): optional sign, a non-empty digit run, 64-bit range
check.  Go checks the range digit by digit against a cutoff; since the
accumulator only grows, that is equivalent to the final-value check used
here. -/
def goParseInt64 (s : String) : Option Int :=
  match s.toList with
  | [] => none
  | c :: rest =>
    if c = '+' then goParseInt64Core rest false
    else if c = '-' then goParseInt64Core rest true
    else goParseInt64Core (c :: rest) false

/-! ## Backoff state machine (pkg/tempo/workload.go, HandleHTTPResponse) -/

/-- HTTP response as the backoff controller observes it: the status code and
the `Retry-After` header (`""` when absent, as returned by `Header.Get`). -/
structure HTTPResponseModel where
  statusCode : Int
  retryAfter : String
  deriving Repr, DecidableEq

/-- Mirror of `QueryWorkload.HandleHTTPResponse`: the new backoff duration
(nanoseconds) from the current one and the observed response. -/
def HandleHTTPResponse (cfg : QueryWorkloadConfig) (backoffDuration : Int)
    (resp : HTTPResponseModel) : Int :=
  if !cfg.enableBackoff then backoffDuration
  else if resp.statusCode = 429 ∨ (500 ≤ resp.statusCode ∧ resp.statusCode < 600) then
    match (if resp.retryAfter ≠ "" then goParseInt64 resp.retryAfter else none) with
    | some seconds =>
      let d := seconds * 1000000000
      if d > cfg.maxBackoffMs * 1000000 then cfg.maxBackoffMs * 1000000 else d
    | none =>
      if backoffDuration = 0 then cfg.minBackoffMs * 1000000
      else
        let d := ratTrunc ((backoffDuration : ℚ) * (3 / 2))
        if d > cfg.maxBackoffMs * 1000000 then cfg.maxBackoffMs * 1000000 else d
  else 0

/-- Backoff configuration of scenario S4: `min=200ms`, `max=30000ms`,
backoff enabled (the remaining fields at their defaults). -/
def s4Config : QueryWorkloadConfig := DefaultQueryWorkloadConfig

/-- A plain 429 response with no `Retry-After` header. -/
def resp429 : HTTPResponseModel := ⟨429, ""⟩

/-- A 200 response. -/
def resp200 : HTTPResponseModel := ⟨200, ""⟩

/-- Backoff after `n` consecutive 429 responses (no `Retry-After`),
starting from the idle state. -/
def backoff429Seq : Nat → Int
  | 0 => 0
  | n + 1 => HandleHTTPResponse s4Config (backoff429Seq n) resp429

/-! ## Backoff application (pkg/tempo/workload.go, applyBackoff) -/

/-- Mirror of `QueryWorkload.applyBackoff`.  Returns `some delay` (the
duration slept, `0` when no backoff applies) or `none` when the code
panics: with jitter enabled, the jitter draw is
`rand.Intn(int(delay.Milliseconds()/10))`, and Go's `rand.Intn` panics
when its argument is not positive. -/
def applyBackoff (cfg : QueryWorkloadConfig) (backoffDuration : Int) (r : Rng) :
    Option (Int × Rng) :=
  if !cfg.enableBackoff then some (0, r)
  else if backoffDuration > 0 then
    if cfg.backoffJitter then
      let arg := backoffDuration / 1000000 / 10
      if arg ≤ 0 then none
      else
        let (j, r') := r.intn arg.toNat
        some (backoffDuration + (j : Int) * 1000000, r')
    else some (backoffDuration, r)
  else some (0, r)

/-! ## Plan selection (pkg/tempo/workload.go, selectPlanEntry) -/

/-- Total plan weight with non-positive weights coerced to `1.0`, as computed
by the first loop of `selectPlanEntry`. -/
def totalCoercedWeight : List PlanEntry → ℚ
  | [] => 0
  | e :: rest => (if e.weight ≤ 0 then 1 else e.weight) + totalCoercedWeight rest

/-- The weighted scan of `selectPlanEntry`: walk the plan accumulating
coerced weights, returning the first entry whose cumulative weight reaches
`r`. -/
def weightedScan : List PlanEntry → ℚ → ℚ → Option PlanEntry
  | [], _, _ => none
  | e :: rest, r, cw =>
    if r ≤ cw + (if e.weight ≤ 0 then 1 else e.weight) then some e
    else weightedScan rest r (cw + (if e.weight ≤ 0 then 1 else e.weight))

/-- Mirror of `QueryWorkload.selectPlanEntry`.  `planIndex` is the cycling
counter, `f ∈ [0,1)` the `rand.Float64()` draw; returns the selected entry
and the updated counter. -/
def selectPlanEntry (plan : List PlanEntry) (planIndex : Nat) (f : ℚ) :
    Option PlanEntry × Nat :=
  if plan.isEmpty then (none, planIndex)
  else
    let total := totalCoercedWeight plan
    if total = 0 then (plan.get? (planIndex % plan.length), planIndex + 1)
    else
      let r := f * total
      match weightedScan plan r 0 with
      | some e => (some e, planIndex)
      | none => (plan.head?, planIndex)

/-! ## Burst sizes (pkg/tempo/workload.go and pkg/generator/ratelimit.go) -/

/-- Mirror of the exported helper `CalculateBurstSize` (workload.go): this
one does use `math.Ceil`, but no limiter constructor calls it. -/
def CalculateBurstSize (perWorkerQPS burstMultiplier : ℚ) : Int :=
  let burst := ⌈perWorkerQPS * burstMultiplier⌉
  if burst < 1 then 1 else burst

/-- Mirror of `calculateBurstSize` (ratelimit.go): `int(rate × multiplier)`
truncates, then is floored at `minBurstSize = 1`. -/
def calculateBurstSize (targetBytesPerSec burstMultiplier : ℚ) : Int :=
  let burstSize := ratTrunc (targetBytesPerSec * burstMultiplier)
  if burstSize < 1 then 1 else burstSize

/-- Burst size of the limiter built by `NewByteRateLimiter` (ratelimit.go),
including its defaulting of non-positive arguments. -/
def newByteRateLimiterBurst (targetMBps burstMultiplier : ℚ) : Int :=
  let m := if burstMultiplier ≤ 0 then 3 / 2 else burstMultiplier
  let mbps := if targetMBps ≤ 0 then 1 else targetMBps
  calculateBurstSize (mbps * 1048576) m

/-- Burst size of the token bucket built by `NewQueryWorkload`
(workload.go): `int(perVUQPS * BurstMultiplier)` truncates, minimum 1. -/
def newQueryWorkloadBurst (cfg : QueryWorkloadConfig) : Int :=
  let perVUQPS := cfg.targetQPS * cfg.qpsMultiplier
  let burstSize := ratTrunc (perVUQPS * cfg.burstMultiplier)
  if burstSize < 1 then 1 else burstSize

/-- The burst size the specification prescribes: `max(1, ⌈rate × burst
multiplier⌉)`.  Stated from the spec's words for comparison with the
implementations above. -/
def burstCeilSpec (rate burstMultiplier : ℚ) : Int :=
  max 1 ⌈rate * burstMultiplier⌉

/-! ## Byte rate limiter Wait (pkg/generator/ratelimit.go) -/

/-- Chunking loop of `ByteRateLimiter.Wait`: each element of the returned
list is one `WaitN` token acquisition.  `fuel` bounds the iteration count
(`bytes` suffices, as each round consumes at least one byte when
`burst ≥ 1`); `none` models non-termination, which Go would also exhibit
with a non-positive burst. -/
def waitLoop (burst : Int) : Nat → Int → Option (List Int)
  | 0, bytes => if bytes ≤ 0 then some [] else none
  | fuel + 1, bytes =>
    if bytes ≤ 0 then some []
    else
      let waitAmount := if bytes > burst then burst else bytes
      if waitAmount ≤ 0 then none
      else (waitLoop burst fuel (bytes - waitAmount)).map (waitAmount :: ·)

/-- Mirror of `ByteRateLimiter.Wait`: non-positive requests return
immediately (no `WaitN` call, hence no token acquired and no state
change); otherwise the request is issued in burst-sized chunks. -/
def byteRateLimiterWait (burst bytes : Int) : Option (List Int) :=
  if bytes ≤ 0 then some []
  else waitLoop burst bytes.toNat bytes

/-! ## Duration parsing (model of Go's time.ParseDuration)

The workload's time buckets and the query client's time strings are parsed
with `time.ParseDuration`, so its behaviour decides claims C5 and C6 (in
particular the special case that the bare string "0" is a valid duration).
The model below follows the Go standard library function clause by clause;
the float arithmetic used for fractional components is modelled by exact
rationals, which agrees with the binary computation on all inputs the
claims exercise. -/

/-- Go's digit test `'0' <= c && c <= '9'`. -/
def isGoDigit (c : Char) : Bool := '0' ≤ c ∧ c ≤ '9'

/-- Model of Go's `leadingInt`: consume a run of decimal digits, `none` on
uint64 overflow (checked before the multiply and after the add, exactly as
in the source). -/
def goLeadingInt (x : Nat) : List Char → Option (Nat × List Char)
  | [] => some (x, [])
  | c :: cs =>
    if ¬ isGoDigit c then some (x, c :: cs)
    else if x > 2 ^ 63 / 10 then none
    else
      let x' := x * 10 + (c.toNat - 48)
      if x' > 2 ^ 63 then none
      else goLeadingInt x' cs

/-- Model of Go's `leadingFraction`: consume fraction digits, saturating
(further digits are consumed but ignored) once the value would overflow. -/
def goLeadingFraction (x : Nat) (scale : ℚ) (overflow : Bool) :
    List Char → Nat × ℚ × List Char
  | [] => (x, scale, [])
  | c :: cs =>
    if ¬ isGoDigit c then (x, scale, c :: cs)
    else if overflow then goLeadingFraction x scale true cs
    else if x > (2 ^ 63 - 1) / 10 then goLeadingFraction x scale true cs
    else
      let y := x * 10 + (c.toNat - 48)
      if y > 2 ^ 63 then goLeadingFraction x scale true cs
      else goLeadingFraction y (scale * 10) false cs

/-- Go's `unitMap`: nanoseconds per unit name. -/
def unitValue (u : String) : Option Nat :=
  if u = "ns" then some 1
  else if u = "us" ∨ u = "µs" ∨ u = "μs" then some 1000
  else if u = "ms" then some 1000000
  else if u = "s" then some 1000000000
  else if u = "m" then some 60000000000
  else if u = "h" then some 3600000000000
  else none

/-- Component loop of `time.ParseDuration`.  Each successful round consumes
at least one digit and one unit character, so `fuel := length + 1` never
runs out on the source's behaviour; `none` is every error return. -/
def goParseDurationLoop : Nat → Nat → List Char → Option Nat
  | _, d, [] => some d
  | 0, _, _ :: _ => none
  | fuel + 1, d, c :: cs =>
    if ¬ (c = '.' ∨ isGoDigit c) then none
    else
      match goLeadingInt 0 (c :: cs) with
      | none => none
      | some (v, rem1) =>
        let pre := rem1.length != (c :: cs).length
        let fpart :=
          match rem1 with
          | '.' :: fs =>
            let (f, sc, r) := goLeadingFraction 0 1 false fs
            (f, sc, r, r.length != fs.length)
          | _ => (0, (1 : ℚ), rem1, false)
        match fpart with
        | (f, scale, rem2, post) =>
          if !pre && !post then none
          else
            let u := rem2.takeWhile fun ch => ¬ (ch = '.' ∨ isGoDigit ch)
            let rem3 := rem2.drop u.length
            if u = [] then none
            else
              match unitValue (String.mk u) with
              | none => none
              | some unit =>
                if v > 2 ^ 63 / unit then none
                else
                  let v1 := v * unit
                  if f > 0 then
                    let v2 := v1 + (ratTrunc ((f : ℚ) * ((unit : ℚ) / scale))).toNat
                    if v2 > 2 ^ 63 then none
                    else if d + v2 > 2 ^ 63 then none
                    else goParseDurationLoop fuel (d + v2) rem3
                  else if d + v1 > 2 ^ 63 then none
                  else goParseDurationLoop fuel (d + v1) rem3

/-- Body of `goParseDuration` after the optional sign was consumed. -/
def goParseDurationSigned (neg : Bool) (s1 : List Char) : Option Int :=
  if s1 = ['0'] then some 0
  else if s1 = [] then none
  else
    match goParseDurationLoop (s1.length + 1) 0 s1 with
    | none => none
    | some d =>
      if neg then some (-(d : Int))
      else if (d : Int) > 2 ^ 63 - 1 then none
      else some (d : Int)

/-- Model of `time.ParseDuration`, in nanoseconds; `none` is a parse
error. -/
def goParseDuration (str : String) : Option Int :=
  match str.toList with
  | [] => goParseDurationSigned false []
  | c :: rest =>
    if c = '-' then goParseDurationSigned true rest
    else if c = '+' then goParseDurationSigned false rest
    else goParseDurationSigned false (c :: rest)

/-! ## Time string parsing (query client, parseTime) -/

/-- Mirror of the query client's `parseTime`.  `now` is the wall clock
observed by `time.Now()`; `rfcParse` stands for the third fallback,
`time.Parse(time.RFC3339, _)` — an external library routine the claims
never reach, passed in as a parameter so every theorem holds for all of
its behaviours. -/
def parseTime (rfcParse : String → Option Int) (now : Int) (timeStr : String) :
    Option Int :=
  match goParseDuration timeStr with
  | some duration => some (now - duration)
  | none =>
    match goParseInt64 timeStr with
    | some timestamp => some timestamp
    | none => rfcParse timeStr

/-- Little-endian base-10 digits, fuel-based so that it evaluates inside
the kernel (`natDigits_eq_digits` identifies it with `Nat.digits 10`). -/
def natDigitsAux : Nat → Nat → List Nat
  | _, 0 => []
  | 0, _ + 1 => []
  | fuel + 1, n + 1 => ((n + 1) % 10) :: natDigitsAux fuel ((n + 1) / 10)

/-- Little-endian base-10 digits of `n`. -/
def natDigits (n : Nat) : List Nat := natDigitsAux n n

/-- Decimal rendering of a non-negative integer, most significant digit
first (model of what `strconv.FormatInt(n, 10)` / `fmt.Sprintf("%d", n)`
emit for the magnitude). -/
def natDecChars (m : Nat) : List Char :=
  ((natDigits m).reverse).map Nat.digitChar

/-- Model of `strconv.FormatInt(n, 10)`: the canonical decimal rendering
used when the workload formats nanosecond timestamps. -/
def goFormatInt (n : Int) : String :=
  if n = 0 then "0"
  else if n < 0 then String.mk ('-' :: natDecChars n.natAbs)
  else String.mk (natDecChars n.natAbs)

/-! ## Time buckets (pkg/tempo/config.go, ParseTimeRanges) -/

/-- Mirror of `TimeBucketConfig.ParseTimeRanges`: parse the two age
strings; if `elapsed < ageEnd` the bucket is not yet eligible (the Go
code returns zero times and `eligible = false`); otherwise the window is
`[now − ageEnd, now − ageStart]`.  `none` is a parse error. -/
def ParseTimeRanges (tb : TimeBucketConfig) (elapsed now : Int) :
    Option (Int × Int × Bool) :=
  match goParseDuration tb.ageStart with
  | none => none
  | some ageStart =>
    match goParseDuration tb.ageEnd with
    | none => none
    | some ageEnd =>
      if elapsed < ageEnd then some (0, 0, false)
      else some (now - ageEnd, now - ageStart, true)

/-- Time window of one `executeNext` step (workload.go lines 203–227
composed with `executeWithDefaultTimeRange` and the query client's
parameter resolution): resolve the bucket; on ineligibility fall back to
the literal options `start = "1h"`, `end = "now"`, whose resolved window
is `[now − 1h, now]` (an `end` of `"now"` is omitted from the request,
which means the search extends to the present); when eligible, shift both
ends by the jitter offset (zero unless `timeWindowJitterMs > 0`).  `f` is
the jitter draw in `[0,1)`. -/
def executeNextWindow (rfcParse : String → Option Int)
    (cfg : QueryWorkloadConfig) (tb : TimeBucketConfig)
    (elapsed now : Int) (f : ℚ) : Option (Int × Int) :=
  match ParseTimeRanges tb elapsed now with
  | none => none
  | some (startT, endT, eligible) =>
    if eligible = false then
      match parseTime rfcParse now "1h" with
      | some s => some (s, now)
      | none => none
    else if cfg.timeWindowJitterMs > 0 then
      let off := ratTrunc ((f * 2 - 1) * (cfg.timeWindowJitterMs : ℚ)) * 1000000
      some (startT + off, endT + off)
    else some (startT, endT)

/-! ## Tree generator: configuration shapes (tree file of pkg/generator) -/

/-- Mirror of `DurationConfig`. -/
structure DurationConfig where
  baseMs : Int
  varianceMs : Int
  deriving Repr, DecidableEq

/-- Mirror of `CountConfig`. -/
structure CountConfig where
  min : Int
  max : Int
  deriving Repr, DecidableEq

mutual
/-- Mirror of `TraceTreeNode`.  The `tags` map is modelled as an
association list in insertion order (Go map iteration order is
arbitrary; this determinization fixes one order). -/
inductive TraceTreeNode : Type where
  | mk (service operation spanKind : String) (tags : List (String × String))
      (duration : DurationConfig) (errorRate : ℚ) (errorPropagates : Bool)
      (children : List TraceTreeEdge) : TraceTreeNode

/-- Mirror of `TraceTreeEdge`.  `node` is a non-nil pointer in every
configuration the module's parser accepts, so it is modelled as a plain
field (the source's nil-node guard is dead for parsed configurations). -/
inductive TraceTreeEdge : Type where
  | mk (weight : ℚ) (parallel : Bool) (count : CountConfig)
      (node : TraceTreeNode) : TraceTreeEdge
end

def TraceTreeNode.service : TraceTreeNode → String
  | ⟨s, _, _, _, _, _, _, _⟩ => s

def TraceTreeNode.operation : TraceTreeNode → String
  | ⟨_, o, _, _, _, _, _, _⟩ => o

def TraceTreeNode.spanKind : TraceTreeNode → String
  | ⟨_, _, k, _, _, _, _, _⟩ => k

def TraceTreeNode.tags : TraceTreeNode → List (String × String)
  | ⟨_, _, _, t, _, _, _, _⟩ => t

def TraceTreeNode.duration : TraceTreeNode → DurationConfig
  | ⟨_, _, _, _, d, _, _, _⟩ => d

def TraceTreeNode.errorRate : TraceTreeNode → ℚ
  | ⟨_, _, _, _, _, e, _, _⟩ => e

def TraceTreeNode.errorPropagates : TraceTreeNode → Bool
  | ⟨_, _, _, _, _, _, p, _⟩ => p

def TraceTreeNode.children : TraceTreeNode → List TraceTreeEdge
  | ⟨_, _, _, _, _, _, _, c⟩ => c

def TraceTreeEdge.weight : TraceTreeEdge → ℚ
  | ⟨w, _, _, _⟩ => w

def TraceTreeEdge.parallel : TraceTreeEdge → Bool
  | ⟨_, p, _, _⟩ => p

def TraceTreeEdge.count : TraceTreeEdge → CountConfig
  | ⟨_, _, c, _⟩ => c

def TraceTreeEdge.node : TraceTreeEdge → TraceTreeNode
  | ⟨_, _, _, n⟩ => n

/-- An edge with its weight replaced (the in-place weight write of
`NormalizeWeights`). -/
def TraceTreeEdge.withWeight : TraceTreeEdge → ℚ → TraceTreeEdge
  | ⟨_, p, c, n⟩, w => ⟨w, p, c, n⟩

/-- Mirror of `TreeContext`; the `cardinality` map is an association
list. -/
structure TreeContext where
  propagate : List String
  cardinality : List (String × Int)
  deriving Repr

/-- Mirror of `TreeDefaults`. -/
structure TreeDefaults where
  useSemanticAttributes : Bool
  enableTags : Bool
  tagDensity : ℚ
  deriving Repr

/-- Mirror of `TraceTreeConfig`. -/
structure TraceTreeConfig where
  seed : Int
  context : TreeContext
  defaults : TreeDefaults
  root : TraceTreeNode

/-- Mirror of `NormalizeWeights`: if no edge has positive weight, all
become equiprobable; otherwise each positive weight is divided by the sum
of the positive weights (non-positive weights are left alone). -/
def NormalizeWeights (edges : List TraceTreeEdge) : List TraceTreeEdge :=
  let defined := (edges.filter fun e => 0 < e.weight).length
  let total := edges.foldl (fun acc e => if 0 < e.weight then acc + e.weight else acc) 0
  if defined = 0 then
    edges.map fun e => e.withWeight (1 / (edges.length : ℚ))
  else
    edges.map fun e => if 0 < e.weight then e.withWeight (e.weight / total) else e

/-- Mirror of `SelectChildren`: each edge is independently selected when
`Float64() < weight`; a selected edge is repeated `count` times, with
`count` drawn from `[min, max]` when `max > 0`. -/
def SelectChildren : List TraceTreeEdge → Rng → List TraceTreeEdge × Rng
  | [], r => ([], r)
  | e :: rest, r =>
    let fd := r.float64
    if fd.1 < e.weight then
      let cd : Int × Rng :=
        if e.count.max > 0 then
          if e.count.min < e.count.max then
            let kd := fd.2.intn (e.count.max - e.count.min + 1).toNat
            (e.count.min + (kd.1 : Int), kd.2)
          else (e.count.min, fd.2)
        else (1, fd.2)
      let sel := SelectChildren rest cd.2
      (List.replicate cd.1.toNat e ++ sel.1, sel.2)
    else
      SelectChildren rest fd.2

/-- Mirror of `filterParallel`. -/
def filterParallel (edges : List TraceTreeEdge) (parallel : Bool) :
    List TraceTreeEdge :=
  edges.filter fun e => e.parallel == parallel

/-! ## Span model (the OTLP proto span fields the generator writes) -/

inductive SpanKind : Type where
  | server | client | internal | producer | consumer
  deriving Repr, DecidableEq

/-- Mirror of `parseSpanKind` (unknown strings default to server). -/
def parseSpanKind (kindStr : String) : SpanKind :=
  match kindStr with
  | "server" => .server
  | "client" => .client
  | "internal" => .internal
  | "producer" => .producer
  | "consumer" => .consumer
  | _ => .server

inductive StatusCode : Type where
  | ok | error
  deriving Repr, DecidableEq

structure SpanStatus where
  code : StatusCode
  message : String
  deriving Repr, DecidableEq

inductive AttrValue : Type where
  | str (s : String)
  | int (i : Int)
  deriving Repr, DecidableEq

structure KeyValue where
  key : String
  value : AttrValue
  deriving Repr, DecidableEq

/-- Mirror of `newStringKeyValue`. -/
def newStringKeyValue (key value : String) : KeyValue := ⟨key, .str value⟩

/-- Span as the tree generator emits it (timestamps in nanoseconds,
identifiers as byte lists). -/
structure Span where
  traceId : List Nat
  spanId : List Nat
  parentSpanId : List Nat
  name : String
  kind : SpanKind
  startTimeUnixNano : Int
  endTimeUnixNano : Int
  status : SpanStatus
  attributes : List KeyValue
  deriving Repr, DecidableEq

/-- The error-message catalogue of `getRandomErrorMessage`. -/
def errorMessagesList : List String :=
  ["connection timeout", "database connection failed", "invalid request",
   "authentication failed", "rate limit exceeded", "service unavailable",
   "internal server error", "not found", "permission denied",
   "request timeout"]

/-- Mirror of `getRandomErrorMessage`. -/
def getRandomErrorMessage (r : Rng) : String × Rng :=
  let (k, r1) := r.intn errorMessagesList.length
  (errorMessagesList.getD k "", r1)

/-- Mirror of `calculateDurationFromConfig`: duration in nanoseconds,
`max(1ms, baseMs + NormFloat64() × varianceMs)` with defaults 50/30 for
non-positive base and negative variance, truncated to whole
milliseconds. -/
def calculateDurationFromConfig (dur : DurationConfig) (r : Rng) : Int × Rng :=
  let base : ℚ := if (dur.baseMs : ℚ) ≤ 0 then 50 else (dur.baseMs : ℚ)
  let variance : ℚ := if (dur.varianceMs : ℚ) < 0 then 30 else (dur.varianceMs : ℚ)
  let (norm, r1) := r.normFloat64
  let duration : ℚ := base + norm * variance
  let duration : ℚ := if duration < 1 then 1 else duration
  (ratTrunc duration * 1000000, r1)

/-- A run of `n` identifier bytes, each `byte(rng.Intn(256))`. -/
def randBytes : Nat → Rng → List Nat × Rng
  | 0, r => ([], r)
  | k + 1, r =>
    let (b, r1) := r.intn 256
    let (rest, r2) := randBytes k r1
    (b :: rest, r2)

/-! ## Cardinality pools (cardinality file of pkg/generator)

The Go manager is a process-wide singleton behind a mutex; it is modelled
as an explicit state value threaded through the generator.  Maps are
association lists in insertion order. -/

/-- Lookup in an association list (Go map read). -/
def alGet {α : Type} : List (String × α) → String → Option α
  | [], _ => none
  | (k, v) :: rest, key => if k = key then some v else alGet rest key

/-- Insert-or-replace in an association list (Go map write). -/
def alPut {α : Type} : List (String × α) → String → α → List (String × α)
  | [], key, v => [(key, v)]
  | (k, w) :: rest, key, v =>
    if k = key then (k, v) :: rest else (k, w) :: alPut rest key v

/-- Mirror of `CardinalityManager`: the value pools and the materialized
distinct counts. -/
structure CardinalityManager where
  valuePools : List (String × List String)
  cardinality : List (String × Nat)
  deriving Repr, DecidableEq

/-- The freshly initialised manager of `GetCardinalityManager`. -/
def emptyCardinalityManager : CardinalityManager := ⟨[], []⟩

/-- Mirror of `ResetPools`. -/
def CardinalityManager.ResetPools (_cm : CardinalityManager) :
    CardinalityManager := ⟨[], []⟩

/-- Modelled from the spec: `SetConfig` is referenced by the tree
generator but its body is not among the provided sources.  Per the spec,
caller overrides reach pool lookups through the cardinality map, which
`GetValue` receives as an explicit argument; `SetConfig` records that
same map on the manager and has no further observable effect on value
generation, so it leaves the modelled state unchanged. -/
def CardinalityManager.SetConfig (cm : CardinalityManager)
    (_config : List (String × Int)) : CardinalityManager := cm

/-- Mirror of `DefaultCardinality`. -/
def DefaultCardinality (attrName : String) : Int :=
  match attrName with
  | "region" => 8
  | "datacenter" => 6
  | "environment" => 3
  | "http.method" => 5
  | "deployment.environment" => 3
  | "canary" => 2
  | "user_tier" => 4
  | "priority" => 3
  | "version" => 4
  | "http.status_code" => 10
  | "error_type" => 15
  | "availability_zone" => 50
  | "cluster" => 75
  | "tenant_id" => 50
  | "org_id" => 50
  | "git_commit" => 100
  | "feature_flags" => 20
  | "customer_id" => 5000
  | "pod_name" => 2000
  | "k8s.pod.name" => 2000
  | "host.name" => 1000
  | "trace_id" => 0
  | "span_id" => 0
  | "order_id" => 0
  | "request_id" => 0
  | "correlation_id" => 0
  | "payment_id" => 0
  | "shipment_id" => 0
  | "session_id" => 0
  | _ => 50

/-- Random characters from a charset, one `Intn` draw per character. -/
def randomFromCharset (charset : List Char) : Nat → Rng → List Char × Rng
  | 0, r => ([], r)
  | k + 1, r =>
    let (i, r1) := r.intn charset.length
    let (rest, r2) := randomFromCharset charset k r1
    (charset.getD i ' ' :: rest, r2)

/-- Mirror of `randomString` (charset `a`–`z`, `0`–`9`). -/
def randomString (length : Nat) (r : Rng) : String × Rng :=
  let (cs, r') := randomFromCharset
    "abcdefghijklmnopqrstuvwxyz0123456789".toList length r
  (String.mk cs, r')

/-- Mirror of `randomHexString`. -/
def randomHexString (length : Nat) (r : Rng) : String × Rng :=
  let (cs, r') := randomFromCharset "0123456789abcdef".toList length r
  (String.mk cs, r')

/-- Mirror of `generateUniqueValue`. -/
def generateUniqueValue (attrName : String) (r : Rng) : String × Rng :=
  match attrName with
  | "trace_id" | "span_id" | "request_id" | "correlation_id" =>
    randomHexString 16 r
  | "order_id" | "payment_id" | "shipment_id" =>
    let (h, r') := randomHexString 12 r
    (attrName.dropRight 3 ++ "-" ++ h, r')
  | "session_id" => randomHexString 24 r
  | _ => randomHexString 16 r

/-- Decimal rendering of `n` left-padded with zeros to width `w` (Go's
`%0wd`). -/
def padNum (w : Nat) (n : Nat) : String :=
  let s := toString n
  String.mk (List.replicate (w - s.length) '0') ++ s

/-- One pool value of `generateValuePool`, by attribute template. -/
def generatePoolValue (attrName : String) (i : Nat) (r : Rng) : String × Rng :=
  match attrName with
  | "region" =>
    let regions := ["us-east-1", "us-west-2", "eu-west-1", "ap-southeast-1",
      "sa-east-1", "eu-central-1", "ap-northeast-1", "us-central-1"]
    (if i < regions.length then regions.getD i "" else "region-" ++ toString i, r)
  | "datacenter" => ("dc-" ++ padNum 2 (i + 1), r)
  | "environment" | "deployment.environment" =>
    let envs := ["production", "staging", "development"]
    (if i < envs.length then envs.getD i "" else "env-" ++ toString i, r)
  | "http.method" =>
    let methods := ["GET", "POST", "PUT", "DELETE", "PATCH"]
    (if i < methods.length then methods.getD i "" else "METHOD-" ++ toString i, r)
  | "http.status_code" =>
    let codes : List Nat := [200, 201, 204, 301, 302, 400, 401, 403, 404, 500,
      502, 503, 504]
    (if i < codes.length then toString (codes.getD i 0) else toString (200 + i), r)
  | "availability_zone" => ("az-" ++ padNum 2 (i + 1), r)
  | "cluster" => ("cluster-" ++ padNum 3 (i + 1), r)
  | "tenant_id" => ("tenant-" ++ padNum 4 (i + 1), r)
  | "org_id" => ("org-" ++ padNum 4 (i + 1), r)
  | "customer_id" => ("customer-" ++ padNum 6 (i + 1), r)
  | "pod_name" | "k8s.pod.name" =>
    let (s, r') := randomString 5 r
    ("pod-" ++ s ++ "-" ++ padNum 5 (i + 1), r')
  | "host.name" => ("host-" ++ padNum 5 (i + 1), r)
  | "version" =>
    let versions := ["1.0.0", "1.1.0", "1.2.0", "2.0.0"]
    (if i < versions.length then versions.getD i ""
     else "1." ++ toString i ++ ".0", r)
  | "git_commit" => randomHexString 7 r
  | "canary" =>
    let canaries := ["true", "false"]
    (if i < canaries.length then canaries.getD i "" else "false", r)
  | "user_tier" =>
    let tiers := ["free", "basic", "premium", "enterprise"]
    (if i < tiers.length then tiers.getD i "" else "tier-" ++ toString i, r)
  | "priority" =>
    let priorities := ["low", "medium", "high", "critical"]
    (if i < priorities.length then priorities.getD i ""
     else "priority-" ++ toString i, r)
  | "feature_flags" => ("feature-" ++ padNum 3 (i + 1), r)
  | "error_type" =>
    let errs := ["timeout", "connection_error", "validation_error",
      "auth_error", "not_found", "rate_limit", "server_error"]
    (if i < errs.length then errs.getD i "" else "error-" ++ toString i, r)
  | _ => (attrName ++ "-" ++ toString (i + 1), r)

/-- Mirror of `generateValuePool`: `size` templated values in index
order. -/
def generateValuePool (attrName : String) (size : Nat) (r : Rng) :
    List String × Rng :=
  (List.range size).foldl
    (fun acc i =>
      let (v, r') := generatePoolValue attrName i acc.2
      (acc.1 ++ [v], r'))
    ([], r)

/-- Mirror of `CardinalityManager.GetValue`: caller override or default
cardinality; 0 means a fresh unique value (never cached); otherwise draw
from the pool, regenerating it when missing or too small. -/
def CardinalityManager.GetValue (cm : CardinalityManager) (attrName : String)
    (r : Rng) (cardConfig : List (String × Int)) :
    String × CardinalityManager × Rng :=
  let cardinality : Int :=
    match alGet cardConfig attrName with
    | some v => v
    | none => DefaultCardinality attrName
  if cardinality = 0 then
    let (v, r') := generateUniqueValue attrName r
    (v, cm, r')
  else
    let regenerate : Rng → String × CardinalityManager × Rng := fun r0 =>
      let (pool, r1) := generateValuePool attrName cardinality.toNat r0
      let cm' : CardinalityManager :=
        ⟨alPut cm.valuePools attrName pool, alPut cm.cardinality attrName pool.length⟩
      let (k, r2) := r1.intn pool.length
      (pool.getD k "", cm', r2)
    match alGet cm.valuePools attrName with
    | some pool =>
      if cardinality ≤ (pool.length : Int) then
        let (k, r') := r.intn pool.length
        (pool.getD k "", cm, r')
      else regenerate r
    | none => regenerate r

/-! ## Trace context (tree context file of pkg/generator) -/

/-- Mirror of `TreeTraceContext`. -/
structure TreeTraceContext where
  userID : String := ""
  orderID : String := ""
  correlationID : String := ""
  sessionID : String := ""
  tenantID : String := ""
  region : String := ""
  datacenter : String := ""
  availabilityZone : String := ""
  cluster : String := ""
  orgID : String := ""
  customerID : String := ""
  version : String := ""
  gitCommit : String := ""
  canary : String := ""
  userTier : String := ""
  priority : String := ""
  requestID : String := ""
  paymentID : String := ""
  shipmentID : String := ""
  productID : String := ""
  deriving Repr, DecidableEq

/-- Mirror of `NewTreeTraceContext`: resolve every propagation key against
the pool, in list order.  (Note the source resolves `"user_id"` against
the `customer_id` pool.) -/
def NewTreeTraceContext (config : TreeContext) (cm : CardinalityManager)
    (r : Rng) : TreeTraceContext × CardinalityManager × Rng :=
  config.propagate.foldl
    (fun acc propKey =>
      let (ctx, cm, r) := acc
      match propKey with
      | "user_id" =>
        let (v, cm', r') := cm.GetValue "customer_id" r config.cardinality
        ({ ctx with userID := v }, cm', r')
      | "order_id" =>
        let (v, cm', r') := cm.GetValue "order_id" r config.cardinality
        ({ ctx with orderID := v }, cm', r')
      | "correlation_id" =>
        let (v, cm', r') := cm.GetValue "correlation_id" r config.cardinality
        ({ ctx with correlationID := v }, cm', r')
      | "session_id" =>
        let (v, cm', r') := cm.GetValue "session_id" r config.cardinality
        ({ ctx with sessionID := v }, cm', r')
      | "tenant_id" =>
        let (v, cm', r') := cm.GetValue "tenant_id" r config.cardinality
        ({ ctx with tenantID := v }, cm', r')
      | "region" =>
        let (v, cm', r') := cm.GetValue "region" r config.cardinality
        ({ ctx with region := v }, cm', r')
      | "datacenter" =>
        let (v, cm', r') := cm.GetValue "datacenter" r config.cardinality
        ({ ctx with datacenter := v }, cm', r')
      | "availability_zone" =>
        let (v, cm', r') := cm.GetValue "availability_zone" r config.cardinality
        ({ ctx with availabilityZone := v }, cm', r')
      | "cluster" =>
        let (v, cm', r') := cm.GetValue "cluster" r config.cardinality
        ({ ctx with cluster := v }, cm', r')
      | "org_id" =>
        let (v, cm', r') := cm.GetValue "org_id" r config.cardinality
        ({ ctx with orgID := v }, cm', r')
      | "customer_id" =>
        let (v, cm', r') := cm.GetValue "customer_id" r config.cardinality
        ({ ctx with customerID := v }, cm', r')
      | "version" =>
        let (v, cm', r') := cm.GetValue "version" r config.cardinality
        ({ ctx with version := v }, cm', r')
      | "git_commit" =>
        let (v, cm', r') := cm.GetValue "git_commit" r config.cardinality
        ({ ctx with gitCommit := v }, cm', r')
      | "canary" =>
        let (v, cm', r') := cm.GetValue "canary" r config.cardinality
        ({ ctx with canary := v }, cm', r')
      | "user_tier" =>
        let (v, cm', r') := cm.GetValue "user_tier" r config.cardinality
        ({ ctx with userTier := v }, cm', r')
      | "priority" =>
        let (v, cm', r') := cm.GetValue "priority" r config.cardinality
        ({ ctx with priority := v }, cm', r')
      | "request_id" =>
        let (v, cm', r') := cm.GetValue "request_id" r config.cardinality
        ({ ctx with requestID := v }, cm', r')
      | "payment_id" =>
        let (v, cm', r') := cm.GetValue "payment_id" r config.cardinality
        ({ ctx with paymentID := v }, cm', r')
      | "shipment_id" =>
        let (v, cm', r') := cm.GetValue "shipment_id" r config.cardinality
        ({ ctx with shipmentID := v }, cm', r')
      | "product_id" =>
        let (v, cm', r') := cm.GetValue "product_id" r config.cardinality
        ({ ctx with productID := v }, cm', r')
      | _ => acc)
    ({}, cm, r)

/-- Density constants of the generator helpers. -/
def DensityHigh : ℚ := 4 / 5

def DensityMediumHigh : ℚ := 7 / 10

def DensityMediumLow : ℚ := 1 / 2

def DensityVeryLow : ℚ := 3 / 10

/-- One conditional tag block of `GetPropagatedTags`: a density draw is
made only when the context field is non-empty (Go's short-circuit
evaluation). -/
def tagBlock (field : String) (density : ℚ) (key : String)
    (acc : List KeyValue × Rng) : List KeyValue × Rng :=
  if field = "" then acc
  else
    let (f, r') := acc.2.float64
    (if f < density then acc.1 ++ [newStringKeyValue key field] else acc.1, r')

/-- Mirror of `TreeTraceContext.GetPropagatedTags`. -/
def GetPropagatedTags (ctx : TreeTraceContext) (tagDensity : ℚ) (r : Rng) :
    List KeyValue × Rng :=
  let d0 := if tagDensity ≤ 0 then 9 / 10 else tagDensity
  let d := if d0 > 1 then 1 else d0
  let acc := ([], r)
  let acc := tagBlock ctx.region d "infrastructure.region" acc
  let acc := tagBlock ctx.datacenter d "infrastructure.datacenter" acc
  let acc := tagBlock ctx.availabilityZone d "infrastructure.availability_zone" acc
  let acc := tagBlock ctx.cluster d "infrastructure.cluster" acc
  let acc := tagBlock ctx.tenantID d "tenant.id" acc
  let acc := tagBlock ctx.customerID (d * DensityMediumHigh) "tenant.customer_id" acc
  let acc := tagBlock ctx.orgID d "tenant.org_id" acc
  let acc := tagBlock ctx.version d "deployment.version" acc
  let acc := tagBlock ctx.gitCommit (d * DensityHigh) "deployment.git_commit" acc
  let acc := tagBlock ctx.canary (d * DensityVeryLow) "deployment.canary" acc
  let acc := tagBlock ctx.requestID d "request.id" acc
  let acc := tagBlock ctx.correlationID (d * DensityHigh) "request.correlation_id" acc
  let acc := tagBlock ctx.userTier d "request.user_tier" acc
  let acc := tagBlock ctx.priority (d * DensityMediumLow) "request.priority" acc
  let acc := tagBlock ctx.userID d "user.id" acc
  let acc := tagBlock ctx.orderID d "order.id" acc
  let acc := tagBlock ctx.sessionID (d * DensityHigh) "session.id" acc
  let acc := tagBlock ctx.paymentID d "payment.id" acc
  let acc := tagBlock ctx.shipmentID d "shipment.id" acc
  let acc := tagBlock ctx.productID d "product.id" acc
  acc

/-! ## Semantic-convention and resource attributes (pkg/generator/semantic.go) -/

/-- Mirror of `generateSemanticAttributes`. -/
def generateSemanticAttributes (kind : SpanKind) (serviceName : String)
    (r : Rng) : List KeyValue × Rng :=
  let (attrs1, r1) : List KeyValue × Rng :=
    match kind with
    | .server | .client =>
      let methods := ["GET", "POST", "PUT", "DELETE", "PATCH"]
      let (mi, ra) := r.intn methods.length
      let statusCodes : List Int := [200, 201, 204, 400, 401, 403, 404, 500,
        502, 503]
      let (si, rb) := ra.intn statusCodes.length
      let (url, rc) : String × Rng :=
        if serviceName = "frontend" then
          let urls := ["/api/users", "/api/orders", "/api/products", "/health",
            "/static/app.js"]
          let (ui, r') := rb.intn urls.length
          (urls.getD ui "", r')
        else if serviceName = "backend" then
          let urls := ["/v1/process", "/v1/validate", "/v1/webhook"]
          let (ui, r') := rb.intn urls.length
          (urls.getD ui "", r')
        else ("/api/" ++ serviceName, rb)
      ([newStringKeyValue "http.method" (methods.getD mi ""),
        ⟨"http.status_code", .int (statusCodes.getD si 0)⟩,
        newStringKeyValue "http.url" url,
        newStringKeyValue "http.scheme" "https"], rc)
    | .internal => ([newStringKeyValue "service.operation" "internal-process"], r)
    | _ => ([], r)
  let (attrs2, r2) : List KeyValue × Rng :=
    if serviceName = "database" then
      let dbSystems := ["postgresql", "mysql", "mongodb", "redis"]
      let (di, ra) := r1.intn dbSystems.length
      let statements := ["SELECT * FROM users WHERE id = ?",
        "INSERT INTO orders (user_id, total) VALUES (?, ?)",
        "UPDATE products SET stock = ? WHERE id = ?",
        "DELETE FROM sessions WHERE expires_at < ?"]
      let (si, rb) := ra.intn statements.length
      ([newStringKeyValue "db.system" (dbSystems.getD di ""),
        newStringKeyValue "db.statement" (statements.getD si "")], rb)
    else ([], r1)
  let (attrs3, r3) : List KeyValue × Rng :=
    if serviceName = "cache" then
      let operations := ["GET", "SET", "MGET", "MSET", "DEL"]
      let (oi, ra) := r2.intn operations.length
      ([newStringKeyValue "db.system" "redis",
        newStringKeyValue "db.operation" (operations.getD oi "")], ra)
    else ([], r2)
  let (attrs4, r4) : List KeyValue × Rng :=
    if serviceName = "backend" ∨ serviceName = "gateway" then
      let methods := ["Process", "Validate", "Handle", "Execute"]
      let (mi, ra) := r3.intn methods.length
      ([newStringKeyValue "rpc.service" (serviceName ++ ".Service"),
        newStringKeyValue "rpc.method" (methods.getD mi "")], ra)
    else ([], r3)
  (attrs1 ++ attrs2 ++ attrs3 ++ attrs4, r4)

/-- Mirror of `generateResourceAttributes`; the resulting map is modelled
as an association list in insertion order. -/
def generateResourceAttributes (serviceName : String) (r : Rng) :
    List (String × String) × Rng :=
  let _ := serviceName
  let versions := ["1.0.0", "1.1.0", "1.2.0", "2.0.0"]
  let (vi, r1) := r.intn versions.length
  let hosts := ["host-01", "host-02", "host-03", "pod-abc123", "pod-def456"]
  let (hi, r2) := r1.intn hosts.length
  let (f, r3) := r2.float64
  let (k8sAttrs, r4) : List (String × String) × Rng :=
    if f < 7 / 10 then
      let pods := ["pod-abc123", "pod-def456", "pod-ghi789"]
      let (pi, ra) := r3.intn pods.length
      let namespaces := ["production", "staging", "default"]
      let (ni, rb) := ra.intn namespaces.length
      let containers := ["app", "sidecar", "init"]
      let (ci, rc) := rb.intn containers.length
      ([("k8s.pod.name", pods.getD pi ""),
        ("k8s.namespace.name", namespaces.getD ni ""),
        ("k8s.container.name", containers.getD ci "")], rc)
    else ([], r3)
  let envs := ["production", "staging", "development"]
  let (ei, r5) := r4.intn envs.length
  ([("service.version", versions.getD vi ""),
    ("host.name", hosts.getD hi "")] ++ k8sAttrs ++
    [("deployment.environment", envs.getD ei "")], r5)

/-! ## Span emission (generateSpansFromNode and GenerateTraceFromTree)

The recursion below mirrors `generateSpansFromNode`.  In the source the
parent span is a mutable pointer: it is appended to `spansByService`
before its children are generated, and the parallel-children loop may
later promote its status.  Functionally, the span's identity and times
are fixed before the children run (only they are read through the
pointer), so the model computes the children first, then builds the final
span and places it at the position the source appended it.  `events` is
the append sequence feeding `spansByService`, and `pairs` records every
(parent, child) link the recursion creates — the parent-child relation of
the generated trace, carried explicitly so the nesting claims can
quantify over it. -/

/-- The fields of the parent span that a child's generation reads. -/
structure ParentInfo where
  startTime : Int
  endTime : Int
  spanId : List Nat
  deriving Repr, DecidableEq

/-- Result of generating one node's subtree. -/
structure NodeResult where
  span : Span
  events : List (String × Span)
  pairs : List (Span × Span)
  rng : Rng

/-- Result of one child-processing loop (sequential or parallel).
`propagatedError` is the accumulated error-propagation flag — the source
computes it only in the parallel loop, and the sequential loop of the
model mirrors that by always returning `false`. -/
structure ChildrenResult where
  events : List (String × Span)
  directChildren : List Span
  subPairs : List (Span × Span)
  currentTime : Int
  propagatedError : Bool
  rng : Rng

/-! Size function and lemmas used by the termination argument of the
recursion: every edge the selection step can yield carries a node
strictly smaller than the node whose children were selected. -/

mutual
/-- Structural size of a tree node (termination measure). -/
def nodeSize : TraceTreeNode → Nat
  | ⟨_, _, _, _, _, _, _, children⟩ => 1 + edgesSize children

/-- Structural size of an edge list. -/
def edgesSize : List TraceTreeEdge → Nat
  | [] => 0
  | e :: rest => 1 + edgeSize e + edgesSize rest

/-- Structural size of an edge. -/
def edgeSize : TraceTreeEdge → Nat
  | ⟨_, _, _, n⟩ => 1 + nodeSize n
end

theorem TraceTreeEdge.node_withWeight (e : TraceTreeEdge) (w : ℚ) :
    (e.withWeight w).node = e.node := by
  cases e
  rfl

theorem nodeSize_node_lt_edge (e : TraceTreeEdge) :
    nodeSize e.node < edgeSize e := by
  cases e with
  | mk w p c n =>
    rw [TraceTreeEdge.node, edgeSize]
    omega

theorem edgeSize_le_edgesSize {e : TraceTreeEdge} :
    ∀ {l : List TraceTreeEdge}, e ∈ l → edgeSize e ≤ edgesSize l := by
  intro l
  induction l with
  | nil => intro h; cases h
  | cons e' rest ih =>
    intro h
    rw [edgesSize]
    rcases List.mem_cons.mp h with rfl | hm
    · omega
    · have := ih hm
      omega

theorem edgeSize_lt_nodeSize {e : TraceTreeEdge} {node : TraceTreeNode}
    (h : e ∈ node.children) : edgeSize e < nodeSize node := by
  cases node with
  | mk s o k t d er ep ch =>
    simp only [TraceTreeNode.children] at h
    rw [nodeSize]
    have := edgeSize_le_edgesSize h
    omega

theorem mem_SelectChildren {e : TraceTreeEdge} :
    ∀ {l : List TraceTreeEdge} {r : Rng}, e ∈ (SelectChildren l r).1 → e ∈ l := by
  intro l
  induction l with
  | nil =>
    intro r h
    simp [SelectChildren] at h
  | cons e' rest ih =>
    intro r h
    simp only [SelectChildren] at h
    rw [apply_ite Prod.fst] at h
    by_cases hf : (r.float64).1 < e'.weight
    · rw [if_pos hf] at h
      rcases List.mem_append.mp h with hrep | hrec
      · rw [List.eq_of_mem_replicate hrep]
        exact List.mem_cons_self _ _
      · exact List.mem_cons_of_mem _ (ih hrec)
    · rw [if_neg hf] at h
      exact List.mem_cons_of_mem _ (ih h)

theorem mem_NormalizeWeights {e : TraceTreeEdge} {l : List TraceTreeEdge}
    (h : e ∈ NormalizeWeights l) : ∃ e' ∈ l, e.node = e'.node := by
  simp only [NormalizeWeights] at h
  split at h
  · obtain ⟨a, ha, rfl⟩ := List.mem_map.mp h
    exact ⟨a, ha, TraceTreeEdge.node_withWeight a _⟩
  · obtain ⟨a, ha, rfl⟩ := List.mem_map.mp h
    refine ⟨a, ha, ?_⟩
    by_cases hw : 0 < a.weight
    · rw [if_pos hw, TraceTreeEdge.node_withWeight]
    · rw [if_neg hw]

theorem selected_nodeSize_lt (node : TraceTreeNode) (r : Rng) (b : Bool)
    {e : TraceTreeEdge}
    (he : e ∈ filterParallel (SelectChildren (NormalizeWeights node.children) r).1 b) :
    nodeSize e.node < nodeSize node := by
  have h1 : e ∈ (SelectChildren (NormalizeWeights node.children) r).1 :=
    List.mem_of_mem_filter he
  obtain ⟨e', he', hnode⟩ := mem_NormalizeWeights (mem_SelectChildren h1)
  rw [hnode]
  exact lt_trans (nodeSize_node_lt_edge e') (edgeSize_lt_nodeSize he')

/-- Child timing of `generateSpansFromNode`: start the child a random
delay (up to 30% of the parent's duration) into the parent, then clamp
the duration so it ends at least 10 ms before the parent — falling back
to a flat 1 ms when the clamp would leave less than that.  `f` is the
delay draw in `[0,1)`; returns (start, duration). -/
def childTiming (p : ParentInfo) (dur0 : Int) (f : ℚ) : Int × Int :=
  let parentDuration := p.endTime - p.startTime
  let delay := ratTrunc (f * (3 / 10) * (parentDuration : ℚ))
  let startTime := p.startTime + delay
  let maxEnd := p.endTime - 10 * 1000000
  let duration :=
    if startTime + dur0 > maxEnd then
      let clamped := maxEnd - startTime
      if clamped < 1000000 then 1000000 else clamped
    else dur0
  (startTime, duration)

/-- Timing step with its draw: the root starts at the given start time
with the configured duration (no draw); a child consumes one `Float64`
for its delay. -/
def spanTimingDraw (parent : Option ParentInfo) (parentStartTime dur0 : Int)
    (r : Rng) : (Int × Int) × Rng :=
  match parent with
  | none => ((parentStartTime, dur0), r)
  | some p =>
    let fd := r.float64
    (childTiming p dur0 fd.1, fd.2)

/-- Status draw of `generateSpansFromNode`: error with probability
`errorRate`, with a random message from the catalogue. -/
def spanStatusDraw (errorRate : ℚ) (r : Rng) : SpanStatus × Rng :=
  let ferr := r.float64
  if ferr.1 < errorRate then
    let msg := getRandomErrorMessage ferr.2
    (⟨.error, msg.1⟩, msg.2)
  else (⟨.ok, ""⟩, ferr.2)

/-- Attribute assembly of `generateSpansFromNode`: `service.name`, the
node's static tags, then semantic attributes and propagated context tags
when enabled. -/
def spanAttributes (node : TraceTreeNode) (defaults : TreeDefaults)
    (ctx : TreeTraceContext) (spanKind : SpanKind) (r : Rng) :
    List KeyValue × Rng :=
  let attrsSem : List KeyValue × Rng :=
    if defaults.useSemanticAttributes then
      generateSemanticAttributes spanKind node.service r
    else ([], r)
  let attrsTags : List KeyValue × Rng :=
    if defaults.enableTags then
      GetPropagatedTags ctx defaults.tagDensity attrsSem.2
    else ([], attrsSem.2)
  (newStringKeyValue "service.name" node.service ::
    ((node.tags.map fun kv => newStringKeyValue kv.1 kv.2) ++
      attrsSem.1 ++ attrsTags.1), attrsTags.2)

mutual
/-- Mirror of `generateSpansFromNode`.  Children are processed against the
span's `ParentInfo`; the source's guard `len(node.Children) > 0` is
omitted because normalizing and selecting an empty edge list yields the
empty selection without consuming a draw. -/
def generateSpansFromNode (node : TraceTreeNode) (parent : Option ParentInfo)
    (traceId : List Nat) (parentStartTime : Int) (defaults : TreeDefaults)
    (ctx : TreeTraceContext) (r : Rng) : NodeResult :=
  let durRes := calculateDurationFromConfig node.duration r
  let timingRes := spanTimingDraw parent parentStartTime durRes.1 durRes.2
  let startTime := timingRes.1.1
  let endTime := startTime + timingRes.1.2
  let spanKind := parseSpanKind node.spanKind
  let statusRes := spanStatusDraw node.errorRate timingRes.2
  let spanIdRes := randBytes 8 statusRes.2
  let parentSpanId : List Nat :=
    match parent with
    | none => []
    | some p => p.spanId
  let attrsRes := spanAttributes node defaults ctx spanKind spanIdRes.2
  let pInfo : ParentInfo := ⟨startTime, endTime, spanIdRes.1⟩
  let selRes := SelectChildren (NormalizeWeights node.children) attrsRes.2
  let parallelEdges := filterParallel selRes.1 true
  let sequentialEdges := filterParallel selRes.1 false
  let seqRes := genSequential (nodeSize node) sequentialEdges
    (fun _ he => selected_nodeSize_lt node attrsRes.2 false he)
    pInfo traceId startTime defaults ctx selRes.2
  let parRes := genParallel (nodeSize node) parallelEdges
    (fun _ he => selected_nodeSize_lt node attrsRes.2 true he)
    pInfo traceId endTime seqRes.currentTime defaults ctx seqRes.rng
  let status := statusRes.1
  let finalStatus : SpanStatus :=
    if parRes.propagatedError then
      ⟨.error, if status.message = "" then "child span failed" else status.message⟩
    else status
  let span : Span := ⟨traceId, spanIdRes.1, parentSpanId, node.operation,
    spanKind, startTime, endTime, finalStatus, attrsRes.1⟩
  { span := span
    events := (node.service, span) :: (seqRes.events ++ parRes.events)
    pairs := (seqRes.directChildren ++ parRes.directChildren).map (fun c => (span, c))
      ++ seqRes.subPairs ++ parRes.subPairs
    rng := parRes.rng }
termination_by (nodeSize node + 1, 0)

/-- The sequential-children loop of `generateSpansFromNode`: children run
one after the other, `currentTime` advancing to each child's end.  The
source applies no error propagation here. -/
def genSequential (N : Nat) (edges : List TraceTreeEdge)
    (h : ∀ e ∈ edges, nodeSize e.node < N) (pInfo : ParentInfo)
    (traceId : List Nat) (currentTime : Int) (defaults : TreeDefaults)
    (ctx : TreeTraceContext) (r : Rng) : ChildrenResult :=
  match edges, h with
  | [], _ => ⟨[], [], [], currentTime, false, r⟩
  | e :: rest, h =>
    let res := generateSpansFromNode e.node (some pInfo) traceId currentTime
      defaults ctx r
    let childEnd := res.span.endTimeUnixNano
    let newCurrent := if childEnd > currentTime then childEnd else currentTime
    let restRes := genSequential N rest
      (fun e' he' => h e' (List.mem_cons_of_mem _ he')) pInfo traceId
      newCurrent defaults ctx res.rng
    ⟨res.events ++ restRes.events, res.span :: restRes.directChildren,
      res.pairs ++ restRes.subPairs, restRes.currentTime, false, restRes.rng⟩
termination_by (N, edges.length + 1)
decreasing_by
  · have hlt := h e (List.mem_cons_self e rest)
    rcases Nat.lt_or_ge (nodeSize e.node + 1) N with hc | hc
    · exact Prod.Lex.left _ _ hc
    · have heq : N = nodeSize e.node + 1 := by omega
      subst heq
      exact Prod.Lex.right _ (by omega)
  · exact Prod.Lex.right _ (by simp only [List.length_cons]; omega)

/-- The parallel-children loop of `generateSpansFromNode`: each child is
generated only when time remains (`availableTime > 0`), starting at a
random offset into it, and a child ending in error with the edge's
`errorPropagates` flag set promotes the parent's status. -/
def genParallel (N : Nat) (edges : List TraceTreeEdge)
    (h : ∀ e ∈ edges, nodeSize e.node < N) (pInfo : ParentInfo)
    (traceId : List Nat) (endTime currentTime : Int) (defaults : TreeDefaults)
    (ctx : TreeTraceContext) (r : Rng) : ChildrenResult :=
  match edges, h with
  | [], _ => ⟨[], [], [], currentTime, false, r⟩
  | e :: rest, h =>
    let availableTime := endTime - currentTime
    if availableTime > 0 then
      let fd := r.float64
      let delay := ratTrunc (fd.1 * (2 / 10) * (availableTime : ℚ))
      let parallelStart := currentTime + delay
      let res := generateSpansFromNode e.node (some pInfo) traceId parallelStart
        defaults ctx fd.2
      let prop : Bool :=
        match res.span.status.code with
        | .error => e.node.errorPropagates
        | .ok => false
      let restRes := genParallel N rest
        (fun e' he' => h e' (List.mem_cons_of_mem _ he')) pInfo traceId endTime
        currentTime defaults ctx res.rng
      ⟨res.events ++ restRes.events, res.span :: restRes.directChildren,
        res.pairs ++ restRes.subPairs, restRes.currentTime,
        prop || restRes.propagatedError, restRes.rng⟩
    else
      genParallel N rest (fun e' he' => h e' (List.mem_cons_of_mem _ he'))
        pInfo traceId endTime currentTime defaults ctx r
termination_by (N, edges.length + 1)
decreasing_by
  · have hlt := h e (List.mem_cons_self e rest)
    rcases Nat.lt_or_ge (nodeSize e.node + 1) N with hc | hc
    · exact Prod.Lex.left _ _ hc
    · have heq : N = nodeSize e.node + 1 := by omega
      subst heq
      exact Prod.Lex.right _ (by omega)
  · exact Prod.Lex.right _ (by simp only [List.length_cons]; omega)
  · exact Prod.Lex.right _ (by simp only [List.length_cons]; omega)
end

/-! ## Trace assembly (GenerateTraceFromTree) -/

/-- Append a span to its service's group, preserving first-insertion
order (determinization of the Go `spansByService` map). -/
def appendSpanToService : List (String × List Span) → String → Span →
    List (String × List Span)
  | [], svc, sp => [(svc, [sp])]
  | (k, sps) :: rest, svc, sp =>
    if k = svc then (k, sps ++ [sp]) :: rest
    else (k, sps) :: appendSpanToService rest svc sp

/-- Fold the append sequence into per-service groups, listed in
first-insertion order.  The source then ranges over this `spansByService`
Go map, whose iteration order is randomized per run;
`GenerateTraceFromTreeIter` takes that order as an explicit ambient
input, while `GenerateTraceFromTree` fixes it to first-insertion order
(none of the pair/status/timestamp observables depend on it). -/
def groupEvents (events : List (String × Span)) : List (String × List Span) :=
  events.foldl (fun acc ev => appendSpanToService acc ev.1 ev.2) []

/-- One resource group of the assembled trace: the resource attributes
(insertion order) and the scope's spans. -/
structure ResourceSpansM where
  resourceAttributes : List (String × String)
  spans : List Span
  deriving Repr, DecidableEq

/-- Build the resource groups from the map entries in the order the
caller supplies (the `range spansByService` iteration order): each gets
`generateResourceAttributes` plus the `service.name` entry, with the
attribute draws consumed from the shared source in that same order. -/
def buildResourceGroups : List (String × List Span) → Rng →
    List ResourceSpansM × Rng
  | [], r => ([], r)
  | (svc, spans) :: rest, r =>
    let ra := generateResourceAttributes svc r
    let restRes := buildResourceGroups rest ra.2
    (⟨ra.1 ++ [("service.name", svc)], spans⟩ :: restRes.1, restRes.2)

/-- Everything `GenerateTraceFromTree` produces: the assembled trace (as
resource groups), the parent-child pair relation of its spans, the trace
identifier, and the cardinality-manager state after the call. -/
structure TraceResult where
  resourceGroups : List ResourceSpansM
  pairs : List (Span × Span)
  traceId : List Nat
  cm : CardinalityManager
  deriving Repr, DecidableEq

/-- The deterministic tape of `rand.New(rand.NewSource(seed))`.  Only the
facts that it is a pure function of the seed and yields in-range draws
are relied on; the exact values of Go's generator are not modelled (no
claim depends on them). -/
def rngOfSeed (seed : Int) : Rng :=
  ⟨fun i => (((seed.natAbs + 1) * (i + 1)) % 16 : Nat) / (16 : ℚ), 0⟩

/-- Mirror of `GenerateTraceFromTree` with every ambient runtime input
explicit: `cmIn` the global cardinality manager's state, `wallRng` the
wall-clock-seeded source used when `seed = 0`, `cryptoId` the
crypto-random trace identifier used when `seed = 0`, `now` the wall
clock (`time.Now()`), from which the trace start time is drawn back up
to an hour, and `iter` the order in which the Go runtime yields the
`spansByService` map entries when the source ranges over them
(randomized per run).  Go guarantees `iter` yields a permutation of the
entries; the theorems below hold for every reordering function, a
superset of those behaviours. -/
def GenerateTraceFromTreeIter (config : TraceTreeConfig)
    (cmIn : CardinalityManager) (wallRng : Rng) (cryptoId : List Nat)
    (now : Int)
    (iter : List (String × List Span) → List (String × List Span)) :
    TraceResult :=
  let rng := if config.seed ≠ 0 then rngOfSeed config.seed else wallRng
  let cm0 := if config.context.cardinality.length > 0
    then cmIn.SetConfig config.context.cardinality else cmIn
  let cm1 := if config.seed ≠ 0 then cm0.ResetPools else cm0
  let ctxRes := NewTreeTraceContext config.context cm1 rng
  let idRes : List Nat × Rng :=
    if config.seed ≠ 0 then randBytes 16 ctxRes.2.2 else (cryptoId, ctxRes.2.2)
  let secsRes := idRes.2.intn 3600
  let traceStartTime := now - (secsRes.1 : Int) * 1000000000
  let res := generateSpansFromNode config.root none idRes.1 traceStartTime
    config.defaults ctxRes.1 secsRes.2
  let grouped := groupEvents res.events
  let groupsRes := buildResourceGroups (iter grouped) res.rng
  ⟨groupsRes.1, res.pairs, idRes.1, ctxRes.2.1⟩

/-- `GenerateTraceFromTree` with the `spansByService` iteration order
fixed to first-insertion order — the determinization used by the
theorems whose observables (trace identifier, span timestamps, statuses
and parent-child pairs) do not depend on that order. -/
def GenerateTraceFromTree (config : TraceTreeConfig)
    (cmIn : CardinalityManager) (wallRng : Rng) (cryptoId : List Nat)
    (now : Int) : TraceResult :=
  let rng := if config.seed ≠ 0 then rngOfSeed config.seed else wallRng
  let cm0 := if config.context.cardinality.length > 0
    then cmIn.SetConfig config.context.cardinality else cmIn
  let cm1 := if config.seed ≠ 0 then cm0.ResetPools else cm0
  let ctxRes := NewTreeTraceContext config.context cm1 rng
  let idRes : List Nat × Rng :=
    if config.seed ≠ 0 then randBytes 16 ctxRes.2.2 else (cryptoId, ctxRes.2.2)
  let secsRes := idRes.2.intn 3600
  let traceStartTime := now - (secsRes.1 : Int) * 1000000000
  let res := generateSpansFromNode config.root none idRes.1 traceStartTime
    config.defaults ctxRes.1 secsRes.2
  let grouped := groupEvents res.events
  let groupsRes := buildResourceGroups grouped res.rng
  ⟨groupsRes.1, res.pairs, idRes.1, ctxRes.2.1⟩

/-! ## Nesting predicates and concrete scenario configurations -/

/-- The pair relation the generator is expected to maintain between a
parent span and each of its direct children: the child starts no earlier
than the parent, and once the parent lasts at least 16 ms the child ends
at least 1 ms before the parent. -/
def SpanNests (p c : Span) : Prop :=
  p.startTimeUnixNano ≤ c.startTimeUnixNano ∧
  (16000000 ≤ p.endTimeUnixNano - p.startTimeUnixNano →
    c.endTimeUnixNano + 1000000 ≤ p.endTimeUnixNano)

/-- The same relation stated against the `ParentInfo` record the
recursion threads down. -/
def ChildFits (p : ParentInfo) (s : Span) : Prop :=
  (0 ≤ p.endTime - p.startTime → p.startTime ≤ s.startTimeUnixNano) ∧
  (16000000 ≤ p.endTime - p.startTime → s.endTimeUnixNano + 1000000 ≤ p.endTime)

/-- What holds of one generated subtree: the span lasts at least 1 ms,
it fits its parent (when it has one), and every parent-child pair below
it nests. -/
def NodeNests (res : NodeResult) (parent : Option ParentInfo) : Prop :=
  1000000 ≤ res.span.endTimeUnixNano - res.span.startTimeUnixNano ∧
  (∀ p, parent = some p → ChildFits p res.span) ∧
  (∀ pc ∈ res.pairs, SpanNests pc.1 pc.2)

/-- What holds of one child-processing loop: every direct child fits the
parent, and every pair produced below nests. -/
def ChildrenNest (cres : ChildrenResult) (pInfo : ParentInfo) : Prop :=
  (∀ s ∈ cres.directChildren, ChildFits pInfo s) ∧
  (∀ pc ∈ cres.subPairs, SpanNests pc.1 pc.2)

/-- A random tape on which every draw takes its smallest value. -/
def zeroRng : Rng := ⟨fun _ => 0, 0⟩

/-- A 25 ms auth span with no children. -/
def authNode : TraceTreeNode :=
  ⟨"auth", "ValidateToken", "server", [], ⟨25, 0⟩, 0, false, []⟩

/-- A 200 ms frontend root with `authNode` as its single sequential
child. -/
def c1Root : TraceTreeNode :=
  ⟨"frontend", "POST /api/orders", "server", [], ⟨200, 0⟩, 0, false,
    [⟨1, false, ⟨0, 0⟩, authNode⟩]⟩

/-- A seeded configuration (seed 12345) over `c1Root`, with semantic
attributes and tags disabled. -/
def c1Config : TraceTreeConfig :=
  ⟨12345, ⟨[], []⟩, ⟨false, false, 9 / 10⟩, c1Root⟩

/-- The root span `GenerateTraceFromTree c1Config … 0` emits. -/
def c1RootSpan : Span :=
  ⟨List.replicate 16 0, List.replicate 8 0, [], "POST /api/orders", .server,
    0, 200000000, ⟨.ok, ""⟩, [⟨"service.name", .str "frontend"⟩]⟩

/-- The child span `GenerateTraceFromTree c1Config … 0` emits. -/
def c1ChildSpan : Span :=
  ⟨List.replicate 16 0, List.replicate 8 0, List.replicate 8 0,
    "ValidateToken", .server, 45000000, 70000000, ⟨.ok, ""⟩,
    [⟨"service.name", .str "auth"⟩]⟩

/-- A 1 ms leaf span. -/
def c2Child : TraceTreeNode :=
  ⟨"auth", "child", "server", [], ⟨1, 0⟩, 0, false, []⟩

/-- A 1 ms root — far below the 10 ms clamp buffer — with a single
sequential 1 ms child. -/
def c2Root : TraceTreeNode :=
  ⟨"frontend", "root", "server", [], ⟨1, 0⟩, 0, false,
    [⟨1, false, ⟨0, 0⟩, c2Child⟩]⟩

/-- Unseeded configuration over `c2Root` (the supplied tape stands in for
the wall-clock source). -/
def c2Config : TraceTreeConfig :=
  ⟨0, ⟨[], []⟩, ⟨false, false, 9 / 10⟩, c2Root⟩

/-- A child that always ends in error, on an edge whose
`errorPropagates` flag is set. -/
def c3Child : TraceTreeNode :=
  ⟨"auth", "child", "server", [], ⟨10, 0⟩, 1, true, []⟩

/-- A 100 ms root with the always-erroring child attached sequentially. -/
def c3RootSeq : TraceTreeNode :=
  ⟨"frontend", "root", "server", [], ⟨100, 0⟩, 0, false,
    [⟨1, false, ⟨0, 0⟩, c3Child⟩]⟩

/-- The same tree with the child attached in parallel. -/
def c3RootPar : TraceTreeNode :=
  ⟨"frontend", "root", "server", [], ⟨100, 0⟩, 0, false,
    [⟨1, true, ⟨0, 0⟩, c3Child⟩]⟩

def c3SeqConfig : TraceTreeConfig :=
  ⟨0, ⟨[], []⟩, ⟨false, false, 9 / 10⟩, c3RootSeq⟩

def c3ParConfig : TraceTreeConfig :=
  ⟨0, ⟨[], []⟩, ⟨false, false, 9 / 10⟩, c3RootPar⟩

/-! # Theorems -/

/-! ## Basic lemmas about truncation and the random source -/

theorem ratFloor_eq_intFloor (q : ℚ) : q.floor = ⌊q⌋ := by
  rw [Rat.floor_def', Rat.floor_def]

theorem ratTrunc_def (q : ℚ) : ratTrunc q = if 0 ≤ q then ⌊q⌋ else ⌈q⌉ := by
  rw [ratTrunc, ratFloor_eq_intFloor, ratFloor_eq_intFloor, Int.floor_neg, neg_neg]

theorem ratTrunc_of_nonneg {q : ℚ} (h : 0 ≤ q) : ratTrunc q = ⌊q⌋ := by
  simp [ratTrunc_def, h]

theorem ratTrunc_nonneg {q : ℚ} (h : 0 ≤ q) : 0 ≤ ratTrunc q := by
  rw [ratTrunc_of_nonneg h]
  exact Int.floor_nonneg.mpr h

theorem ratTrunc_le {q : ℚ} (h : 0 ≤ q) : (ratTrunc q : ℚ) ≤ q := by
  rw [ratTrunc_of_nonneg h]
  exact Int.floor_le q

theorem Rng.frac_nonneg (q : ℚ) : 0 ≤ Rng.frac q := by
  simp only [Rng.frac, sub_nonneg]
  exact Int.floor_le q

theorem Rng.frac_lt_one (q : ℚ) : Rng.frac q < 1 := by
  have h := Int.lt_floor_add_one q
  simp only [Rng.frac]
  linarith

theorem Rng.float64_nonneg (r : Rng) : 0 ≤ (r.float64).1 := Rng.frac_nonneg _

theorem Rng.float64_lt_one (r : Rng) : (r.float64).1 < 1 := Rng.frac_lt_one _

theorem Rng.intn_lt (r : Rng) {n : Nat} (h : 0 < n) : (r.intn n).1 < n :=
  Nat.mod_lt _ h

/-! ## Supporting lemmas for the backoff ladder -/

theorem handle429_eq (d : Int) :
    HandleHTTPResponse s4Config d resp429 =
      if d = 0 then 200000000
      else if ratTrunc ((d : ℚ) * (3 / 2)) > 30000000000 then 30000000000
      else ratTrunc ((d : ℚ) * (3 / 2)) := by
  norm_num [HandleHTTPResponse, s4Config, DefaultQueryWorkloadConfig, resp429]

theorem handle200_eq (cfg : QueryWorkloadConfig) (hcfg : cfg.enableBackoff = true)
    (d : Int) : HandleHTTPResponse cfg d resp200 = 0 := by
  norm_num [HandleHTTPResponse, resp200, hcfg]

theorem step429_ge {d : Int} (h0 : 0 ≤ d) (hcap : d ≤ 30000000000) :
    d ≤ HandleHTTPResponse s4Config d resp429 := by
  rw [handle429_eq]
  rcases eq_or_ne d 0 with h | h
  · simp [h]
  · have hd : (0 : ℚ) ≤ (d : ℚ) := by exact_mod_cast h0
    have hq : (d : ℚ) ≤ (d : ℚ) * (3 / 2) := by nlinarith
    have hfl : d ≤ ratTrunc ((d : ℚ) * (3 / 2)) := by
      rw [ratTrunc_of_nonneg (by positivity)]
      exact Int.le_floor.mpr (by exact_mod_cast hq)
    simp only [if_neg h]
    split <;> omega

theorem step429_bounds {d : Int} (h0 : 0 ≤ d) (hcap : d ≤ 30000000000) :
    0 ≤ HandleHTTPResponse s4Config d resp429 ∧
      HandleHTTPResponse s4Config d resp429 ≤ 30000000000 := by
  have hge := step429_ge h0 hcap
  rw [handle429_eq] at hge ⊢
  rcases eq_or_ne d 0 with h | h
  · simp [h]
  · simp only [if_neg h] at hge ⊢
    split at hge <;> split <;> omega

theorem backoff429Seq_invariant (n : Nat) :
    0 ≤ backoff429Seq n ∧ backoff429Seq n ≤ 30000000000 := by
  induction n with
  | zero => simp [backoff429Seq]
  | succ k ih => exact step429_bounds ih.1 ih.2

/-- C4: with min-backoff 200 ms, max-backoff 30000 ms and multiplier 1.5,
consecutive 429 responses without Retry-After produce a non-decreasing
backoff sequence bounded by max-backoff; any 2xx (here 200) resets the
backoff to 0 from any state; and the response sequence 429, 429, 429, 200
produces backoffs 200 ms, 300 ms, 450 ms, 0 ms. -/
theorem backoff_ladder_monotone_capped_resets :
    (∀ n : Nat, backoff429Seq n ≤ backoff429Seq (n + 1)) ∧
    (∀ n : Nat, backoff429Seq n ≤ 30000 * 1000000) ∧
    (∀ d : Int, HandleHTTPResponse s4Config d resp200 = 0) ∧
    [backoff429Seq 1, backoff429Seq 2, backoff429Seq 3,
      HandleHTTPResponse s4Config (backoff429Seq 3) resp200] =
      [200 * 1000000, 300 * 1000000, 450 * 1000000, 0] := by
  have s1 : backoff429Seq 1 = 200000000 := by
    show HandleHTTPResponse s4Config (backoff429Seq 0) resp429 = _
    rw [show backoff429Seq 0 = 0 from rfl, handle429_eq]
    norm_num
  have s2 : backoff429Seq 2 = 300000000 := by
    show HandleHTTPResponse s4Config (backoff429Seq 1) resp429 = _
    rw [s1, handle429_eq]
    norm_num [ratTrunc_def]
  have s3 : backoff429Seq 3 = 450000000 := by
    show HandleHTTPResponse s4Config (backoff429Seq 2) resp429 = _
    rw [s2, handle429_eq]
    norm_num [ratTrunc_def]
  refine ⟨fun n => ?_, fun n => ?_, fun d => handle200_eq _ rfl d, ?_⟩
  · exact step429_ge (backoff429Seq_invariant n).1 (backoff429Seq_invariant n).2
  · exact (backoff429Seq_invariant n).2
  · rw [s1, s2, s3, handle200_eq _ rfl]
    norm_num

/-! ## C7: burst sizes truncate, they do not take ceilings -/

/-- C7 counterexample: at byte rate 1 byte/s with burst multiplier 1.5 the
byte limiter (as constructed by `NewByteRateLimiter`) gets burst 1, and at
0.5 QPS with burst multiplier 3 the query workload's token bucket gets
burst 1, while the claimed formula `max(1, ⌈rate × multiplier⌉)` gives 2
in both cases.  (The exported helper `CalculateBurstSize` does take the
ceiling, but no limiter constructor calls it.) -/
theorem burst_size_not_ceiling :
    newByteRateLimiterBurst (1 / 1048576) (3 / 2) = 1 ∧
    newQueryWorkloadBurst { DefaultQueryWorkloadConfig with
      targetQPS := 1 / 2, qpsMultiplier := 1, burstMultiplier := 3 } = 1 ∧
    burstCeilSpec 1 (3 / 2) = 2 ∧
    burstCeilSpec ((1 / 2) * 1) 3 = 2 ∧
    CalculateBurstSize 1 (3 / 2) = 2 := by
  have hc : (⌈(3 / 2 : ℚ)⌉ : Int) = 2 := by
    rw [Int.ceil_eq_iff]
    norm_num
  refine ⟨?_, ?_, ?_, ?_, ?_⟩ <;>
    norm_num [newByteRateLimiterBurst, newQueryWorkloadBurst, calculateBurstSize,
      DefaultQueryWorkloadConfig, ratTrunc_def, burstCeilSpec, CalculateBurstSize, hc]

/-- C7 (amended): every rate limiter the engine constructs — the byte rate
limiter and the query workload's token bucket — gets burst size
`max(1, ⌊rate × burst-multiplier⌋)`: the product is truncated, not
ceiled, and then floored at 1. -/
theorem burst_size_is_floor (rate mult : ℚ) (cfg : QueryWorkloadConfig)
    (mbps bm : ℚ) (h1 : 0 ≤ rate * mult)
    (h2 : 0 ≤ cfg.targetQPS * cfg.qpsMultiplier * cfg.burstMultiplier)
    (h3 : 0 < mbps) (h4 : 0 < bm) :
    calculateBurstSize rate mult = max 1 ⌊rate * mult⌋ ∧
    newQueryWorkloadBurst cfg =
      max 1 ⌊cfg.targetQPS * cfg.qpsMultiplier * cfg.burstMultiplier⌋ ∧
    newByteRateLimiterBurst mbps bm = max 1 ⌊mbps * 1048576 * bm⌋ := by
  have base : ∀ q : ℚ, 0 ≤ q →
      (if ratTrunc q < 1 then 1 else ratTrunc q) = max 1 ⌊q⌋ := by
    intro q hq
    rw [ratTrunc_of_nonneg hq]
    rcases le_or_lt 1 ⌊q⌋ with h | h
    · rw [if_neg (by omega), max_eq_right h]
    · rw [if_pos h, max_eq_left (by omega)]
  refine ⟨base _ h1, base _ h2, ?_⟩
  have hm : ¬ bm ≤ 0 := not_le.mpr h4
  have hmb : ¬ mbps ≤ 0 := not_le.mpr h3
  have : mbps * 1048576 * bm ≥ 0 := by positivity
  simpa [newByteRateLimiterBurst, calculateBurstSize, hm, hmb] using base _ this

/-- C7 witness: the amended formula at the counterexample's inputs. -/
theorem burst_size_is_floor_witness :
    calculateBurstSize 1 (3 / 2) = max 1 ⌊(1 : ℚ) * (3 / 2)⌋ ∧
    newQueryWorkloadBurst DefaultQueryWorkloadConfig =
      max 1 ⌊DefaultQueryWorkloadConfig.targetQPS *
        DefaultQueryWorkloadConfig.qpsMultiplier *
        DefaultQueryWorkloadConfig.burstMultiplier⌋ ∧
    newByteRateLimiterBurst 1 (3 / 2) = max 1 ⌊(1 : ℚ) * 1048576 * (3 / 2)⌋ :=
  burst_size_is_floor 1 (3 / 2) DefaultQueryWorkloadConfig 1 (3 / 2)
    (by norm_num) (by norm_num [DefaultQueryWorkloadConfig]) (by norm_num)
    (by norm_num)

/-! ## C8: backoff application panics on sub-10ms backoffs -/

/-- C8: with backoff and jitter enabled (the defaults), applying a current
backoff of 5 ms reaches `rand.Intn(0)`, which panics (modelled as `none`);
a 200 ms backoff is applied without panic.  The jitter argument
`delay.Milliseconds()/10` is 0 for every positive delay below 10 ms. -/
theorem applyBackoff_panics_below_ten_ms :
    applyBackoff DefaultQueryWorkloadConfig 5000000 ⟨fun _ => 0, 0⟩ = none ∧
    (applyBackoff DefaultQueryWorkloadConfig 200000000 ⟨fun _ => 0, 0⟩).isSome
      = true :=
  ⟨rfl, rfl⟩

/-! ## C9: Wait on a non-positive byte count is a no-op -/

/-- C9: for every burst size and every requested byte count `n ≤ 0`,
`ByteRateLimiter.Wait` returns nil immediately: no `WaitN` call is made
(the chunk list is empty), so no token is acquired and the limiter state
is untouched. -/
theorem byteWait_nonpositive_noop (burst bytes : Int) (h : bytes ≤ 0) :
    byteRateLimiterWait burst bytes = some [] := by
  simp [byteRateLimiterWait, h]

/-- C9 witness at burst 5, bytes −3. -/
theorem byteWait_nonpositive_noop_witness :
    byteRateLimiterWait 5 (-3) = some [] :=
  byteWait_nonpositive_noop 5 (-3) (by decide)

/-! ## C10: plan selection never falls back to cycling -/

theorem totalCoercedWeight_nonneg (plan : List PlanEntry) :
    0 ≤ totalCoercedWeight plan := by
  induction plan with
  | nil => simp [totalCoercedWeight]
  | cons e rest ih =>
    have : (0 : ℚ) < if e.weight ≤ 0 then 1 else e.weight := by
      split <;> [norm_num; linarith [not_le.mp (by assumption)]]
    simp only [totalCoercedWeight]
    linarith

theorem totalCoercedWeight_pos {plan : List PlanEntry} (h : plan ≠ []) :
    0 < totalCoercedWeight plan := by
  cases plan with
  | nil => exact absurd rfl h
  | cons e rest =>
    have h1 : (0 : ℚ) < if e.weight ≤ 0 then 1 else e.weight := by
      split <;> [norm_num; linarith [not_le.mp (by assumption)]]
    have h2 := totalCoercedWeight_nonneg rest
    simp only [totalCoercedWeight]
    linarith

theorem weightedScan_cons_isSome (e : PlanEntry) (rest : List PlanEntry) :
    ∀ cw r : ℚ, r < cw + totalCoercedWeight (e :: rest) →
      (weightedScan (e :: rest) r cw).isSome = true := by
  induction rest generalizing e with
  | nil =>
    intro cw r h
    simp only [totalCoercedWeight, add_zero] at h
    have step : weightedScan [e] r cw =
        if r ≤ cw + (if e.weight ≤ 0 then 1 else e.weight) then some e
        else none := rfl
    rw [step, if_pos (by linarith)]
    rfl
  | cons e2 rest ih =>
    intro cw r h
    have step : weightedScan (e :: e2 :: rest) r cw =
        if r ≤ cw + (if e.weight ≤ 0 then 1 else e.weight) then some e
        else weightedScan (e2 :: rest) r
          (cw + (if e.weight ≤ 0 then 1 else e.weight)) := rfl
    rw [step]
    by_cases hr : r ≤ cw + (if e.weight ≤ 0 then 1 else e.weight)
    · rw [if_pos hr]
      rfl
    · rw [if_neg hr]
      refine ih e2 _ r ?_
      simp only [totalCoercedWeight] at h ⊢
      linarith

/-- C10: for a non-empty execution plan, the coerced total weight is
positive — so the "total weight is 0" cycling fallback in
`selectPlanEntry` is unreachable — and for every draw `f ∈ [0,1)` the
weighted scan finds an entry, which `selectPlanEntry` returns with the
cycling counter untouched. -/
theorem selectPlanEntry_weighted {plan : List PlanEntry} (planIndex : Nat)
    (f : ℚ) (hne : plan ≠ []) (_h0 : 0 ≤ f) (h1 : f < 1) :
    0 < totalCoercedWeight plan ∧
    (weightedScan plan (f * totalCoercedWeight plan) 0).isSome = true ∧
    selectPlanEntry plan planIndex f =
      (weightedScan plan (f * totalCoercedWeight plan) 0, planIndex) := by
  have htot := totalCoercedWeight_pos hne
  have hscan : (weightedScan plan (f * totalCoercedWeight plan) 0).isSome
      = true := by
    obtain ⟨e, rest, rfl⟩ := List.exists_cons_of_ne_nil hne
    refine weightedScan_cons_isSome e rest 0 _ ?_
    have : f * totalCoercedWeight (e :: rest) <
        1 * totalCoercedWeight (e :: rest) :=
      mul_lt_mul_of_pos_right h1 htot
    linarith
  refine ⟨htot, hscan, ?_⟩
  obtain ⟨e, he⟩ := Option.isSome_iff_exists.mp hscan
  simp only [selectPlanEntry, List.isEmpty_iff, if_neg hne, if_neg (ne_of_gt htot)]
  rw [he]

/-- C10 witness at a two-entry plan with weights 0 and 2 and draw 1/2. -/
theorem selectPlanEntry_weighted_witness :
    0 < totalCoercedWeight [⟨"a", "b", 0⟩, ⟨"c", "d", 2⟩] ∧
    (weightedScan [⟨"a", "b", 0⟩, ⟨"c", "d", 2⟩]
      ((1 / 2) * totalCoercedWeight [⟨"a", "b", 0⟩, ⟨"c", "d", 2⟩]) 0).isSome
      = true ∧
    selectPlanEntry [⟨"a", "b", 0⟩, ⟨"c", "d", 2⟩] 0 (1 / 2) =
      (weightedScan [⟨"a", "b", 0⟩, ⟨"c", "d", 2⟩]
        ((1 / 2) * totalCoercedWeight [⟨"a", "b", 0⟩, ⟨"c", "d", 2⟩]) 0, 0) :=
  selectPlanEntry_weighted 0 (1 / 2) (by decide) (by norm_num) (by norm_num)

/-! ## Decimal digits: rendering and parsing round-trip -/

theorem natDigitsAux_eq (fuel : Nat) : ∀ n : Nat, n ≤ fuel →
    natDigitsAux fuel n = Nat.digits 10 n := by
  induction fuel with
  | zero =>
    intro n hn
    interval_cases n
    simp [natDigitsAux]
  | succ fuel ih =>
    intro n hn
    match n with
    | 0 => simp [natDigitsAux]
    | m + 1 =>
      rw [natDigitsAux, Nat.digits_def' (b := 10) (by norm_num) (Nat.succ_pos m),
        ih ((m + 1) / 10) ?_]
      have := Nat.div_lt_self (Nat.succ_pos m) (show 1 < 10 by norm_num)
      omega

theorem natDigits_eq_digits (n : Nat) : natDigits n = Nat.digits 10 n :=
  natDigitsAux_eq n n le_rfl

theorem natDigits_mem_lt {n d : Nat} (hd : d ∈ natDigits n) : d < 10 := by
  rw [natDigits_eq_digits] at hd
  exact Nat.digits_lt_base (by norm_num) hd

theorem isGoDigit_digitChar {d : Nat} (hd : d < 10) :
    isGoDigit (Nat.digitChar d) = true := by
  interval_cases d <;> decide

theorem digitVal_digitChar {d : Nat} (hd : d < 10) :
    digitVal (Nat.digitChar d) = some d := by
  interval_cases d <;> decide

theorem natDecChars_digits {c : Char} {m : Nat} (hc : c ∈ natDecChars m) :
    isGoDigit c = true := by
  simp only [natDecChars, List.mem_map, List.mem_reverse] at hc
  obtain ⟨d, hd, rfl⟩ := hc
  exact isGoDigit_digitChar (natDigits_mem_lt hd)

theorem natDecChars_ne_nil {m : Nat} (hm : m ≠ 0) : natDecChars m ≠ [] := by
  simp only [natDecChars, ne_eq, List.map_eq_nil_iff, List.reverse_eq_nil_iff,
    natDigits_eq_digits]
  exact Nat.digits_ne_nil_iff_ne_zero.mpr hm

theorem parseDecDigits_append (a : Nat) (xs ys : List Char) :
    parseDecDigits a (xs ++ ys) =
      (parseDecDigits a xs).bind fun v => parseDecDigits v ys := by
  induction xs generalizing a with
  | nil => simp [parseDecDigits]
  | cons c cs ih =>
    cases hdv : digitVal c with
    | none => simp [parseDecDigits, hdv]
    | some d => simp [parseDecDigits, hdv, ih]

theorem parseDecDigits_rev (L : List Nat) (hL : ∀ d ∈ L, d < 10) :
    ∀ a : Nat, parseDecDigits a ((L.reverse).map Nat.digitChar) =
      some (a * 10 ^ L.length + Nat.ofDigits 10 L) := by
  induction L with
  | nil =>
    intro a
    simp [parseDecDigits, Nat.ofDigits_nil]
  | cons d ds ih =>
    intro a
    have hd : d < 10 := hL d (by simp)
    have hds : ∀ x ∈ ds, x < 10 := fun x hx => hL x (by simp [hx])
    rw [List.reverse_cons, List.map_append, parseDecDigits_append, ih hds a]
    simp only [Option.some_bind, List.map_cons, List.map_nil, parseDecDigits,
      digitVal_digitChar hd, Nat.ofDigits_cons, List.length_cons]
    congr 1
    ring

theorem parseDecDigits_natDecChars (m : Nat) :
    parseDecDigits 0 (natDecChars m) = some m := by
  have h := parseDecDigits_rev (natDigits m)
    (fun d hd => natDigits_mem_lt hd) 0
  rw [natDecChars, h, natDigits_eq_digits, Nat.ofDigits_digits]
  simp

theorem natDecChars_ne_zero_list {m : Nat} (hm : m ≠ 0) :
    natDecChars m ≠ ['0'] := by
  intro h
  have := parseDecDigits_natDecChars m
  rw [h] at this
  simp [parseDecDigits, digitVal] at this
  exact hm this.symm

/-! ## The duration grammar rejects bare nonzero integers -/

theorem goLeadingInt_digits :
    ∀ cs : List Char, (∀ c ∈ cs, isGoDigit c = true) → ∀ x : Nat,
      goLeadingInt x cs = none ∨ ∃ v, goLeadingInt x cs = some (v, []) := by
  intro cs
  induction cs with
  | nil => exact fun _ x => Or.inr ⟨x, rfl⟩
  | cons c cs ih =>
    intro hdig x
    have hc : isGoDigit c = true := hdig c (by simp)
    have step0 : goLeadingInt x (c :: cs) =
        if ¬ isGoDigit c then some (x, c :: cs)
        else if x > 2 ^ 63 / 10 then none
        else if x * 10 + (c.toNat - 48) > 2 ^ 63 then none
        else goLeadingInt (x * 10 + (c.toNat - 48)) cs := rfl
    rw [step0, if_neg (by simp [hc])]
    by_cases h1 : x > 2 ^ 63 / 10
    · exact Or.inl (if_pos h1)
    · rw [if_neg h1]
      by_cases h2 : x * 10 + (c.toNat - 48) > 2 ^ 63
      · exact Or.inl (if_pos h2)
      · rw [if_neg h2]
        exact ih (fun c' hm => hdig c' (List.mem_cons_of_mem _ hm)) _

theorem goParseDurationLoop_digits (fuel d : Nat) (c : Char) (cs : List Char)
    (hc : isGoDigit c = true) (hdig : ∀ ch ∈ cs, isGoDigit ch = true) :
    goParseDurationLoop fuel d (c :: cs) = none := by
  cases fuel with
  | zero => rfl
  | succ fuel =>
    have hall : ∀ ch ∈ c :: cs, isGoDigit ch = true := by
      intro ch hm
      rcases List.mem_cons.mp hm with rfl | hm
      · exact hc
      · exact hdig ch hm
    rcases goLeadingInt_digits (c :: cs) hall 0 with hnone | ⟨v, hv⟩
    · simp [goParseDurationLoop, hc, hnone]
    · simp [goParseDurationLoop, hc, hv]

theorem goParseDurationSigned_digits (neg : Bool) (cs : List Char)
    (hne : cs ≠ []) (h0 : cs ≠ ['0'])
    (hdig : ∀ c ∈ cs, isGoDigit c = true) :
    goParseDurationSigned neg cs = none := by
  obtain ⟨c, cs', rfl⟩ := List.exists_cons_of_ne_nil hne
  rw [goParseDurationSigned, if_neg h0, if_neg hne,
    goParseDurationLoop_digits _ _ c cs' (hdig c (by simp))
      (fun ch hm => hdig ch (by simp [hm]))]

theorem goParseDuration_format {n : Int} (hn : n ≠ 0) :
    goParseDuration (goFormatInt n) = none := by
  have hm : n.natAbs ≠ 0 := Int.natAbs_ne_zero.mpr hn
  have hne := natDecChars_ne_nil hm
  have hz := natDecChars_ne_zero_list hm
  have hdig : ∀ c ∈ natDecChars n.natAbs, isGoDigit c = true :=
    fun _ hc => natDecChars_digits hc
  rcases lt_or_gt_of_ne hn with hneg | hpos
  · have hfmt : goFormatInt n = String.mk ('-' :: natDecChars n.natAbs) := by
      rw [goFormatInt, if_neg hn, if_pos hneg]
    have step : goParseDuration ⟨'-' :: natDecChars n.natAbs⟩ =
        goParseDurationSigned true (natDecChars n.natAbs) := rfl
    rw [hfmt, step]
    exact goParseDurationSigned_digits true _ hne hz hdig
  · have hfmt : goFormatInt n = String.mk (natDecChars n.natAbs) := by
      rw [goFormatInt, if_neg hn, if_neg (by omega)]
    obtain ⟨c, cs', hcons⟩ := List.exists_cons_of_ne_nil hne
    have hc : isGoDigit c = true := hdig c (by rw [hcons]; simp)
    have hcm : ¬ c = '-' := fun h => absurd (h ▸ hc) (by decide)
    have hcp : ¬ c = '+' := fun h => absurd (h ▸ hc) (by decide)
    rw [hfmt, hcons]
    show (if c = '-' then goParseDurationSigned true cs'
      else if c = '+' then goParseDurationSigned false cs'
      else goParseDurationSigned false (c :: cs')) = none
    rw [if_neg hcm, if_neg hcp, ← hcons]
    exact goParseDurationSigned_digits false _ hne hz hdig

/-! ## Integer parsing recovers the rendered value -/

theorem goParseInt64Core_natDecChars_true {m : Nat} (hm : m ≠ 0) :
    goParseInt64Core (natDecChars m) true =
      if (m : Int) ≤ 2 ^ 63 then some (-(m : Int)) else none := by
  obtain ⟨c, cs', hcons⟩ := List.exists_cons_of_ne_nil (natDecChars_ne_nil hm)
  have step : goParseInt64Core (c :: cs') true =
      match parseDecDigits 0 (c :: cs') with
      | none => none
      | some v => if (v : Int) ≤ 2 ^ 63 then some (-(v : Int)) else none := rfl
  rw [hcons, step, ← hcons, parseDecDigits_natDecChars]

theorem goParseInt64Core_natDecChars_false {m : Nat} (hm : m ≠ 0) :
    goParseInt64Core (natDecChars m) false =
      if (m : Int) ≤ 2 ^ 63 - 1 then some (m : Int) else none := by
  obtain ⟨c, cs', hcons⟩ := List.exists_cons_of_ne_nil (natDecChars_ne_nil hm)
  have step : goParseInt64Core (c :: cs') false =
      match parseDecDigits 0 (c :: cs') with
      | none => none
      | some v => if (v : Int) ≤ 2 ^ 63 - 1 then some (v : Int) else none := rfl
  rw [hcons, step, ← hcons, parseDecDigits_natDecChars]

theorem goParseInt64_format {n : Int} (hlo : -(2 ^ 63) ≤ n) (hhi : n < 2 ^ 63) :
    goParseInt64 (goFormatInt n) = some n := by
  rcases lt_trichotomy n 0 with hneg | rfl | hpos
  · have hm : n.natAbs ≠ 0 := Int.natAbs_ne_zero.mpr (ne_of_lt hneg)
    have hfmt : goFormatInt n = String.mk ('-' :: natDecChars n.natAbs) := by
      rw [goFormatInt, if_neg (ne_of_lt hneg), if_pos hneg]
    have step : goParseInt64 ⟨'-' :: natDecChars n.natAbs⟩ =
        goParseInt64Core (natDecChars n.natAbs) true := rfl
    rw [hfmt, step, goParseInt64Core_natDecChars_true hm,
      if_pos (show ((n.natAbs : Int)) ≤ 2 ^ 63 by omega)]
    congr 1
    omega
  · rfl
  · have hm : n.natAbs ≠ 0 := Int.natAbs_ne_zero.mpr (ne_of_gt hpos)
    have hfmt : goFormatInt n = String.mk (natDecChars n.natAbs) := by
      rw [goFormatInt, if_neg (ne_of_gt hpos), if_neg (by omega)]
    obtain ⟨c, cs', hcons⟩ := List.exists_cons_of_ne_nil (natDecChars_ne_nil hm)
    have hc : isGoDigit c = true := natDecChars_digits (by rw [hcons]; simp)
    have hcp : ¬ c = '+' := fun h => absurd (h ▸ hc) (by decide)
    have hcm : ¬ c = '-' := fun h => absurd (h ▸ hc) (by decide)
    rw [hfmt, hcons]
    show (if c = '+' then goParseInt64Core cs' false
      else if c = '-' then goParseInt64Core cs' true
      else goParseInt64Core (c :: cs') false) = some n
    rw [if_neg hcp, if_neg hcm, ← hcons, goParseInt64Core_natDecChars_false hm,
      if_pos (show ((n.natAbs : Int)) ≤ 2 ^ 63 - 1 by omega)]
    congr 1
    omega

/-! ## C6: parseTime on integer strings -/

/-- C6 counterexample: the string `"0"` is a valid nanosecond epoch
integer (`strconv.ParseInt` accepts it, yielding 0), but `parseTime`
tries `time.ParseDuration` first, which accepts the bare `"0"` as a zero
duration, so the result is `now` (here `now = 1`), and re-rendering gives
`"1"`, not the original `"0"`. -/
theorem parseTime_zero_hits_duration_branch :
    goParseInt64 "0" = some 0 ∧
    parseTime (fun _ => none) 1 "0" = some 1 ∧
    goFormatInt 1 ≠ "0" :=
  ⟨rfl, rfl, by decide⟩

/-- C6 (amended): for every time string that is the canonical decimal
rendering of a nonzero int64 value `n`, `parseTime` yields exactly `n`
(the duration branch rejects it, the integer branch accepts it), so
re-rendering the result as a nanosecond epoch integer yields the original
string.  The bare string `"0"` instead parses as a zero duration and
yields the current time. -/
theorem parseTime_roundtrip (rfcParse : String → Option Int) (now : Int)
    {n : Int} (hn : n ≠ 0) (hlo : -(2 ^ 63) ≤ n) (hhi : n < 2 ^ 63) :
    parseTime rfcParse now (goFormatInt n) = some n := by
  rw [parseTime, goParseDuration_format hn, goParseInt64_format hlo hhi]

/-- C6 witness: the round-trip at `n = 123`. -/
theorem parseTime_roundtrip_witness :
    parseTime (fun _ => none) 0 (goFormatInt 123) = some 123 :=
  parseTime_roundtrip (fun _ => none) 0 (by decide) (by decide) (by decide)

/-! ## C5: time-bucket eligibility and the query window -/

/-- C5: for every time bucket whose age strings parse as durations
`ageStart` and `ageEnd`, and with time-window jitter at its default 0,
one workload step resolves the query window as follows: when
`elapsed < ageEnd` the bucket is not eligible and the step falls back to
the default window `[now − 1h, now]` (options `"1h"` and `"now"`); when
eligible the window is `[now − ageEnd, now − ageStart]`. -/
theorem executeNextWindow_eligibility (rfcParse : String → Option Int)
    (cfg : QueryWorkloadConfig) (tb : TimeBucketConfig)
    (elapsed now : Int) (f : ℚ) {ageStart ageEnd : Int}
    (hs : goParseDuration tb.ageStart = some ageStart)
    (he : goParseDuration tb.ageEnd = some ageEnd)
    (hj : cfg.timeWindowJitterMs = 0) :
    (elapsed < ageEnd →
      executeNextWindow rfcParse cfg tb elapsed now f =
        some (now - 3600000000000, now)) ∧
    (ageEnd ≤ elapsed →
      executeNextWindow rfcParse cfg tb elapsed now f =
        some (now - ageEnd, now - ageStart)) := by
  have h1h : parseTime rfcParse now "1h" = some (now - 3600000000000) := by
    rw [parseTime, show goParseDuration "1h" = some 3600000000000 from rfl]
  constructor
  · intro hlt
    simp [executeNextWindow, ParseTimeRanges, hs, he, hlt, h1h]
  · intro hge
    simp [executeNextWindow, ParseTimeRanges, hs, he, not_lt.mpr hge, hj]

/-- C5 witness (scenario S6): bucket ages `1h`–`6h`; at elapsed 2h the
bucket is not eligible and the default window is used; at elapsed 7h it
is eligible. -/
theorem executeNextWindow_eligibility_witness :
    ((7200000000000 : Int) < 21600000000000 →
      executeNextWindow (fun _ => none) DefaultQueryWorkloadConfig
        ⟨"night", "1h", "6h", 1⟩ 7200000000000 1000 0 =
        some (1000 - 3600000000000, 1000)) ∧
    ((21600000000000 : Int) ≤ 7200000000000 →
      executeNextWindow (fun _ => none) DefaultQueryWorkloadConfig
        ⟨"night", "1h", "6h", 1⟩ 7200000000000 1000 0 =
        some (1000 - 21600000000000, 1000 - 3600000000000)) :=
  executeNextWindow_eligibility (fun _ => none) DefaultQueryWorkloadConfig
    ⟨"night", "1h", "6h", 1⟩ 7200000000000 1000 0 rfl rfl rfl

/-! ## Determinism of the tree generator (wall-clock dependence) -/

/-- Fixing the iteration order to first-insertion order recovers the
determinized assembly. -/
theorem GenerateTraceFromTreeIter_id (config : TraceTreeConfig)
    (cmIn : CardinalityManager) (wallRng : Rng) (cryptoId : List Nat)
    (now : Int) :
    GenerateTraceFromTreeIter config cmIn wallRng cryptoId now (fun g => g) =
      GenerateTraceFromTree config cmIn wallRng cryptoId now := rfl

/-- C1 counterexample: even with a nonzero seed, two back-to-back
invocations are not byte-identical, for two independent reasons.  The
generator reads the wall clock for the trace start time, so invocations
observing different values of `time.Now()` emit the same trace
identifier but shifted span timestamps; and the resource groups are
assembled by ranging over the `spansByService` Go map, so their order
follows the run's randomized iteration order (shown here by reversing
it, which swaps the two groups). -/
theorem generateTrace_not_byte_identical :
    c1Config.seed ≠ 0 ∧
    ((GenerateTraceFromTree c1Config emptyCardinalityManager zeroRng
        (List.replicate 16 0) 0).resourceGroups.map fun g =>
          g.spans.map fun s => s.startTimeUnixNano) = [[0], [45000000]] ∧
    ((GenerateTraceFromTree c1Config emptyCardinalityManager zeroRng
        (List.replicate 16 0) 3600000000000).resourceGroups.map fun g =>
          g.spans.map fun s => s.startTimeUnixNano) =
      [[3600000000000], [3600045000000]] ∧
    (GenerateTraceFromTree c1Config emptyCardinalityManager zeroRng
        (List.replicate 16 0) 0).traceId =
      (GenerateTraceFromTree c1Config emptyCardinalityManager zeroRng
        (List.replicate 16 0) 3600000000000).traceId ∧
    ((GenerateTraceFromTreeIter c1Config emptyCardinalityManager zeroRng
        (List.replicate 16 0) 0 (fun g => g)).resourceGroups.map fun g =>
          g.spans.map fun s => s.name) =
      [["POST /api/orders"], ["ValidateToken"]] ∧
    ((GenerateTraceFromTreeIter c1Config emptyCardinalityManager zeroRng
        (List.replicate 16 0) 0 List.reverse).resourceGroups.map fun g =>
          g.spans.map fun s => s.name) =
      [["ValidateToken"], ["POST /api/orders"]] :=
  ⟨by decide, by with_unfolding_all rfl, by with_unfolding_all rfl,
    by with_unfolding_all rfl, by with_unfolding_all rfl,
    by with_unfolding_all rfl⟩

/-- C1 (amended): with a nonzero seed, once the two ambient runtime
inputs — the observed wall clock and the run's randomized
`spansByService` iteration order — are held fixed, the generator is a
pure function of the configuration: the ambient cardinality-manager
state, the wall-clock-seeded fallback source and the crypto identifier
source do not affect the result.  Moreover the trace identifier depends
on neither ambient input, and the span tree (every parent-child pair,
with all timestamps and statuses) does not depend on the iteration
order. -/
theorem GenerateTraceFromTree_seeded_pure (config : TraceTreeConfig)
    (cm1 cm2 : CardinalityManager) (w1 w2 : Rng) (id1 id2 : List Nat)
    (now now' : Int)
    (iter1 iter2 : List (String × List Span) → List (String × List Span))
    (h : config.seed ≠ 0) :
    GenerateTraceFromTreeIter config cm1 w1 id1 now iter1 =
      GenerateTraceFromTreeIter config cm2 w2 id2 now iter1 ∧
    (GenerateTraceFromTreeIter config cm1 w1 id1 now iter1).traceId =
      (GenerateTraceFromTreeIter config cm2 w2 id2 now' iter2).traceId ∧
    (GenerateTraceFromTreeIter config cm1 w1 id1 now iter1).pairs =
      (GenerateTraceFromTreeIter config cm2 w2 id2 now iter2).pairs := by
  refine ⟨?_, ?_, ?_⟩ <;>
    simp only [GenerateTraceFromTreeIter, if_pos h,
      CardinalityManager.ResetPools]

theorem GenerateTraceFromTree_seeded_pure_witness :
    (GenerateTraceFromTreeIter c1Config emptyCardinalityManager zeroRng
        (List.replicate 16 0) 0 (fun g => g) =
      GenerateTraceFromTreeIter c1Config ⟨[("region", ["a"])], [("region", 2)]⟩
        (rngOfSeed 7) (List.replicate 16 9) 0 (fun g => g)) ∧
    (GenerateTraceFromTreeIter c1Config emptyCardinalityManager zeroRng
        (List.replicate 16 0) 0 (fun g => g)).traceId =
      (GenerateTraceFromTreeIter c1Config ⟨[("region", ["a"])], [("region", 2)]⟩
        (rngOfSeed 7) (List.replicate 16 9) 55 List.reverse).traceId ∧
    (GenerateTraceFromTreeIter c1Config emptyCardinalityManager zeroRng
        (List.replicate 16 0) 0 (fun g => g)).pairs =
      (GenerateTraceFromTreeIter c1Config ⟨[("region", ["a"])], [("region", 2)]⟩
        (rngOfSeed 7) (List.replicate 16 9) 0 List.reverse).pairs :=
  GenerateTraceFromTree_seeded_pure c1Config emptyCardinalityManager
    ⟨[("region", ["a"])], [("region", 2)]⟩ zeroRng (rngOfSeed 7)
    (List.replicate 16 0) (List.replicate 16 9) 0 55 (fun g => g) List.reverse
    (by decide)

/-! ## Parent-child nesting of generated spans -/

/-- C2 counterexample: with a 1 ms parent — shorter than the 10 ms clamp
buffer — the child's clamped duration falls back to the flat 1 ms floor
and the child ends exactly at the parent's end, violating the claimed
1 ms margin `child.end + 1 ms ≤ parent.end`. -/
theorem nesting_violated_below_clamp_buffer :
    ((GenerateTraceFromTree c2Config emptyCardinalityManager zeroRng
        (List.replicate 16 0) 0).pairs.map fun pc =>
          (pc.1.startTimeUnixNano, pc.1.endTimeUnixNano,
            pc.2.startTimeUnixNano, pc.2.endTimeUnixNano)) =
      [(0, 1000000, 0, 1000000)] ∧
    ((GenerateTraceFromTree c2Config emptyCardinalityManager zeroRng
        (List.replicate 16 0) 0).pairs.any fun pc =>
          !decide (pc.2.endTimeUnixNano + 1000000 ≤ pc.1.endTimeUnixNano)) =
      true :=
  ⟨by with_unfolding_all rfl, by with_unfolding_all rfl⟩

theorem one_le_clamp (q : ℚ) : (1 : ℚ) ≤ if q < 1 then 1 else q := by
  split
  · exact le_refl 1
  · exact le_of_not_lt (by assumption)

theorem ratTrunc_ge_one {q : ℚ} (h : 1 ≤ q) : 1 ≤ ratTrunc q := by
  rw [ratTrunc_of_nonneg (le_trans zero_le_one h)]
  exact Int.le_floor.mpr (by exact_mod_cast h)

/-- The generated duration is always at least 1 ms (the `duration < 1`
clamp floor of `calculateDurationFromConfig`). -/
theorem calculateDurationFromConfig_ge_ms (dur : DurationConfig) (r : Rng) :
    1000000 ≤ (calculateDurationFromConfig dur r).1 := by
  rcases hnr : r.normFloat64 with ⟨norm, r1⟩
  simp only [calculateDurationFromConfig, hnr]
  have h1 := one_le_clamp
    ((if (dur.baseMs : ℚ) ≤ 0 then (50 : ℚ) else (dur.baseMs : ℚ)) +
      norm * (if (dur.varianceMs : ℚ) < 0 then (30 : ℚ) else (dur.varianceMs : ℚ)))
  have h2 := ratTrunc_ge_one h1
  omega

/-- The clamped child duration is never below the 1 ms floor. -/
theorem childTiming_dur_ge (p : ParentInfo) (dur0 : Int) (f : ℚ)
    (hd : 1000000 ≤ dur0) : 1000000 ≤ (childTiming p dur0 f).2 := by
  simp only [childTiming]
  split
  · split <;> omega
  · exact hd

/-- A child of a non-degenerate parent never starts before it: the random
delay is non-negative. -/
theorem childTiming_start_ge (p : ParentInfo) (dur0 : Int) (f : ℚ)
    (h0 : 0 ≤ f) (hpd : 0 ≤ p.endTime - p.startTime) :
    p.startTime ≤ (childTiming p dur0 f).1 := by
  simp only [childTiming]
  have hq : (0 : ℚ) ≤ f * (3 / 10) * ((p.endTime - p.startTime : Int) : ℚ) := by
    apply mul_nonneg (mul_nonneg h0 (by norm_num))
    exact_mod_cast hpd
  have := ratTrunc_nonneg hq
  omega

/-- Once the parent lasts at least 16 ms, the child ends at least 1 ms
before it: the delay takes at most 30% of the parent, so the clamp leaves
at least 70% − 10 ms ≥ 1.2 ms and its flat 1 ms fallback never fires. -/
theorem childTiming_end_le (p : ParentInfo) (dur0 : Int) (f : ℚ)
    (h0 : 0 ≤ f) (h1 : f < 1) (hpd : 16000000 ≤ p.endTime - p.startTime) :
    (childTiming p dur0 f).1 + (childTiming p dur0 f).2 + 1000000 ≤ p.endTime := by
  have hpdq : (0 : ℚ) < ((p.endTime - p.startTime : Int) : ℚ) := by
    have h : (0 : Int) < p.endTime - p.startTime := by omega
    exact_mod_cast h
  have hnn : (0 : ℚ) ≤ f * (3 / 10) * ((p.endTime - p.startTime : Int) : ℚ) :=
    mul_nonneg (mul_nonneg h0 (by norm_num)) (le_of_lt hpdq)
  have hdle := ratTrunc_le hnn
  have hd0 := ratTrunc_nonneg hnn
  have hd10 : 10 * ratTrunc (f * (3 / 10) * ((p.endTime - p.startTime : Int) : ℚ)) <
      3 * (p.endTime - p.startTime) := by
    have hq : ((10 * ratTrunc (f * (3 / 10) * ((p.endTime - p.startTime : Int) : ℚ)) : Int) : ℚ) <
        ((3 * (p.endTime - p.startTime) : Int) : ℚ) := by
      push_cast
      push_cast at hdle hpdq
      nlinarith [mul_pos (sub_pos.mpr h1) hpdq]
    exact_mod_cast hq
  simp only [childTiming]
  split
  · split <;> omega
  · omega

/-- The span duration the timing step yields is at least 1 ms whenever
the configured duration is. -/
theorem spanTimingDraw_dur_ge (parent : Option ParentInfo) (pst dur0 : Int)
    (r : Rng) (hd : 1000000 ≤ dur0) :
    1000000 ≤ (spanTimingDraw parent pst dur0 r).1.2 := by
  cases parent with
  | none => simpa [spanTimingDraw] using hd
  | some p =>
    simp only [spanTimingDraw]
    exact childTiming_dur_ge p dur0 _ hd

/-- Every span and pair a sequential-children loop emits nests, given
that every strictly smaller node generates a nesting subtree. -/
theorem genSequential_nests (N : Nat)
    (IH : ∀ node, nodeSize node < N →
      ∀ parent traceId pst defaults ctx r,
        NodeNests (generateSpansFromNode node parent traceId pst defaults ctx r)
          parent) :
    ∀ (edges : List TraceTreeEdge) (h : ∀ e ∈ edges, nodeSize e.node < N)
      (pInfo : ParentInfo) (traceId : List Nat) (curT : Int)
      (defaults : TreeDefaults) (ctx : TreeTraceContext) (r : Rng),
      ChildrenNest (genSequential N edges h pInfo traceId curT defaults ctx r)
        pInfo := by
  intro edges
  induction edges with
  | nil =>
    intro h pInfo traceId curT defaults ctx r
    simp only [genSequential, ChildrenNest]
    exact ⟨fun s hs => absurd hs (List.not_mem_nil s),
      fun pc hpc => absurd hpc (List.not_mem_nil pc)⟩
  | cons e rest ih =>
    intro h pInfo traceId curT defaults ctx r
    have hnode := IH e.node (h e (List.mem_cons_self e rest)) (some pInfo)
      traceId curT defaults ctx r
    simp only [genSequential, ChildrenNest]
    have hrest := ih (fun e' he' => h e' (List.mem_cons_of_mem _ he')) pInfo
      traceId
      (if (generateSpansFromNode e.node (some pInfo) traceId curT defaults ctx
            r).span.endTimeUnixNano > curT
        then (generateSpansFromNode e.node (some pInfo) traceId curT defaults
            ctx r).span.endTimeUnixNano
        else curT)
      defaults ctx
      (generateSpansFromNode e.node (some pInfo) traceId curT defaults ctx r).rng
    constructor
    · intro s hs
      rcases List.mem_cons.mp hs with rfl | hs'
      · exact hnode.2.1 pInfo rfl
      · exact hrest.1 s hs'
    · intro pc hpc
      rcases List.mem_append.mp hpc with hpc1 | hpc2
      · exact hnode.2.2 pc hpc1
      · exact hrest.2 pc hpc2

/-- Every span and pair a parallel-children loop emits nests, given that
every strictly smaller node generates a nesting subtree. -/
theorem genParallel_nests (N : Nat)
    (IH : ∀ node, nodeSize node < N →
      ∀ parent traceId pst defaults ctx r,
        NodeNests (generateSpansFromNode node parent traceId pst defaults ctx r)
          parent) :
    ∀ (edges : List TraceTreeEdge) (h : ∀ e ∈ edges, nodeSize e.node < N)
      (pInfo : ParentInfo) (traceId : List Nat) (endT curT : Int)
      (defaults : TreeDefaults) (ctx : TreeTraceContext) (r : Rng),
      ChildrenNest (genParallel N edges h pInfo traceId endT curT defaults ctx r)
        pInfo := by
  intro edges
  induction edges with
  | nil =>
    intro h pInfo traceId endT curT defaults ctx r
    simp only [genParallel, ChildrenNest]
    exact ⟨fun s hs => absurd hs (List.not_mem_nil s),
      fun pc hpc => absurd hpc (List.not_mem_nil pc)⟩
  | cons e rest ih =>
    intro h pInfo traceId endT curT defaults ctx r
    simp only [genParallel]
    split
    · have hnode := IH e.node (h e (List.mem_cons_self e rest)) (some pInfo)
        traceId
        (curT + ratTrunc ((r.float64).1 * (2 / 10) * ((endT - curT : Int) : ℚ)))
        defaults ctx (r.float64).2
      have hrest := ih (fun e' he' => h e' (List.mem_cons_of_mem _ he')) pInfo
        traceId endT curT defaults ctx
        (generateSpansFromNode e.node (some pInfo) traceId
          (curT + ratTrunc ((r.float64).1 * (2 / 10) * ((endT - curT : Int) : ℚ)))
          defaults ctx (r.float64).2).rng
      refine ⟨?_, ?_⟩
      · intro s hs
        rcases List.mem_cons.mp hs with rfl | hs'
        · exact hnode.2.1 pInfo rfl
        · exact hrest.1 s hs'
      · intro pc hpc
        rcases List.mem_append.mp hpc with hpc1 | hpc2
        · exact hnode.2.2 pc hpc1
        · exact hrest.2 pc hpc2
    · exact ih (fun e' he' => h e' (List.mem_cons_of_mem _ he')) pInfo traceId
        endT curT defaults ctx r

/-- Every generated subtree nests: the span lasts at least 1 ms, fits its
parent, and every parent-child pair below it satisfies `SpanNests`. -/
theorem genNode_nests : ∀ (n : Nat) (node : TraceTreeNode), nodeSize node < n →
    ∀ (parent : Option ParentInfo) (traceId : List Nat) (pst : Int)
      (defaults : TreeDefaults) (ctx : TreeTraceContext) (r : Rng),
      NodeNests (generateSpansFromNode node parent traceId pst defaults ctx r)
        parent := by
  intro n
  induction n with
  | zero =>
    intro node hn
    exact absurd hn (Nat.not_lt_zero _)
  | succ n ihn =>
    intro node hn parent traceId pst defaults ctx r
    have IH : ∀ node', nodeSize node' < nodeSize node →
        ∀ parent' traceId' pst' defaults' ctx' r',
          NodeNests (generateSpansFromNode node' parent' traceId' pst' defaults'
            ctx' r') parent' :=
      fun node' h' => ihn node' (by omega)
    cases parent with
    | none =>
      have hdur := spanTimingDraw_dur_ge none pst
        (calculateDurationFromConfig node.duration r).1
        (calculateDurationFromConfig node.duration r).2
        (calculateDurationFromConfig_ge_ms node.duration r)
      have h1e6 : (1000000 : Int) ≤
          ((spanTimingDraw none pst (calculateDurationFromConfig node.duration r).1
              (calculateDurationFromConfig node.duration r).2).1.1 +
            (spanTimingDraw none pst (calculateDurationFromConfig node.duration r).1
              (calculateDurationFromConfig node.duration r).2).1.2) -
          (spanTimingDraw none pst (calculateDurationFromConfig node.duration r).1
              (calculateDurationFromConfig node.duration r).2).1.1 := by
        omega
      have h0 : (0 : Int) ≤
          ((spanTimingDraw none pst (calculateDurationFromConfig node.duration r).1
              (calculateDurationFromConfig node.duration r).2).1.1 +
            (spanTimingDraw none pst (calculateDurationFromConfig node.duration r).1
              (calculateDurationFromConfig node.duration r).2).1.2) -
          (spanTimingDraw none pst (calculateDurationFromConfig node.duration r).1
              (calculateDurationFromConfig node.duration r).2).1.1 := by
        omega
      simp only [generateSpansFromNode, NodeNests]
      refine ⟨h1e6, fun p hp => Option.noConfusion hp, ?_⟩
      intro pc hpc
      rcases List.mem_append.mp hpc with hpc12 | hpar2
      · rcases List.mem_append.mp hpc12 with hmap | hseq2
        · obtain ⟨c, hc, rfl⟩ := List.mem_map.mp hmap
          rcases List.mem_append.mp hc with hcseq | hcpar
          · have hfit := (genSequential_nests (nodeSize node) IH _ _ _ _ _ _ _
              _).1 c hcseq
            exact ⟨hfit.1 h0, fun h16 => hfit.2 h16⟩
          · have hfit := (genParallel_nests (nodeSize node) IH _ _ _ _ _ _ _ _
              _).1 c hcpar
            exact ⟨hfit.1 h0, fun h16 => hfit.2 h16⟩
        · exact (genSequential_nests (nodeSize node) IH _ _ _ _ _ _ _ _).2 pc
            hseq2
      · exact (genParallel_nests (nodeSize node) IH _ _ _ _ _ _ _ _ _).2 pc
          hpar2
    | some p =>
      have hdur := spanTimingDraw_dur_ge (some p) pst
        (calculateDurationFromConfig node.duration r).1
        (calculateDurationFromConfig node.duration r).2
        (calculateDurationFromConfig_ge_ms node.duration r)
      have h1e6 : (1000000 : Int) ≤
          ((spanTimingDraw (some p) pst (calculateDurationFromConfig node.duration r).1
              (calculateDurationFromConfig node.duration r).2).1.1 +
            (spanTimingDraw (some p) pst (calculateDurationFromConfig node.duration r).1
              (calculateDurationFromConfig node.duration r).2).1.2) -
          (spanTimingDraw (some p) pst (calculateDurationFromConfig node.duration r).1
              (calculateDurationFromConfig node.duration r).2).1.1 := by
        omega
      have h0 : (0 : Int) ≤
          ((spanTimingDraw (some p) pst (calculateDurationFromConfig node.duration r).1
              (calculateDurationFromConfig node.duration r).2).1.1 +
            (spanTimingDraw (some p) pst (calculateDurationFromConfig node.duration r).1
              (calculateDurationFromConfig node.duration r).2).1.2) -
          (spanTimingDraw (some p) pst (calculateDurationFromConfig node.duration r).1
              (calculateDurationFromConfig node.duration r).2).1.1 := by
        omega
      simp only [generateSpansFromNode, NodeNests]
      refine ⟨h1e6, ?_, ?_⟩
      · intro p' hp'
        rcases Option.some.inj hp' with rfl
        refine ⟨fun hpd => ?_, fun hpd => ?_⟩
        · exact childTiming_start_ge p
            (calculateDurationFromConfig node.duration r).1
            (((calculateDurationFromConfig node.duration r).2).float64).1
            (Rng.float64_nonneg _) hpd
        · exact childTiming_end_le p
            (calculateDurationFromConfig node.duration r).1
            (((calculateDurationFromConfig node.duration r).2).float64).1
            (Rng.float64_nonneg _) (Rng.float64_lt_one _) hpd
      · intro pc hpc
        rcases List.mem_append.mp hpc with hpc12 | hpar2
        · rcases List.mem_append.mp hpc12 with hmap | hseq2
          · obtain ⟨c, hc, rfl⟩ := List.mem_map.mp hmap
            rcases List.mem_append.mp hc with hcseq | hcpar
            · have hfit := (genSequential_nests (nodeSize node) IH _ _ _ _ _ _ _
                _).1 c hcseq
              exact ⟨hfit.1 h0, fun h16 => hfit.2 h16⟩
            · have hfit := (genParallel_nests (nodeSize node) IH _ _ _ _ _ _ _ _
                _).1 c hcpar
              exact ⟨hfit.1 h0, fun h16 => hfit.2 h16⟩
          · exact (genSequential_nests (nodeSize node) IH _ _ _ _ _ _ _ _).2 pc
              hseq2
        · exact (genParallel_nests (nodeSize node) IH _ _ _ _ _ _ _ _ _).2 pc
            hpar2

/-- C2 (amended): for every tree configuration, every parent-child span
pair of the generated trace satisfies `parent.start ≤ child.start`, and
whenever the parent lasts at least 16 ms the child ends at least 1 ms
before the parent.  The claim's unconditional margin fails for parents
shorter than the 10 ms clamp buffer, where the flat 1 ms fallback
duration can run the child to (or past) the parent's end. -/
theorem generateTrace_nesting (config : TraceTreeConfig)
    (cm : CardinalityManager) (w : Rng) (cid : List Nat) (now : Int)
    (p c : Span)
    (hmem : (p, c) ∈ (GenerateTraceFromTree config cm w cid now).pairs) :
    p.startTimeUnixNano ≤ c.startTimeUnixNano ∧
    (16000000 ≤ p.endTimeUnixNano - p.startTimeUnixNano →
      c.endTimeUnixNano + 1000000 ≤ p.endTimeUnixNano) := by
  simp only [GenerateTraceFromTree] at hmem
  exact (genNode_nests (nodeSize config.root + 1) config.root
    (Nat.lt_succ_self _) none _ _ _ _ _).2.2 (p, c) hmem

theorem generateTrace_nesting_witness :
    (c1RootSpan, c1ChildSpan) ∈ (GenerateTraceFromTree c1Config
        emptyCardinalityManager zeroRng (List.replicate 16 0) 0).pairs ∧
    (c1RootSpan.startTimeUnixNano ≤ c1ChildSpan.startTimeUnixNano ∧
      (16000000 ≤ c1RootSpan.endTimeUnixNano - c1RootSpan.startTimeUnixNano →
        c1ChildSpan.endTimeUnixNano + 1000000 ≤ c1RootSpan.endTimeUnixNano)) :=
  have hp : (GenerateTraceFromTree c1Config emptyCardinalityManager zeroRng
      (List.replicate 16 0) 0).pairs = [(c1RootSpan, c1ChildSpan)] := by
    with_unfolding_all rfl
  have hmem : (c1RootSpan, c1ChildSpan) ∈ (GenerateTraceFromTree c1Config
      emptyCardinalityManager zeroRng (List.replicate 16 0) 0).pairs := by
    rw [hp]
    exact List.mem_singleton_self _
  ⟨hmem, generateTrace_nesting c1Config emptyCardinalityManager zeroRng
     (List.replicate 16 0) 0 c1RootSpan c1ChildSpan hmem⟩

/-! ## Error propagation (sequential vs parallel children) -/

/-- C3: the source computes error propagation only in the
parallel-children loop.  With an always-erroring child whose edge has
`errorPropagates` set, the sequential attachment leaves the parent `ok`,
while the identical tree with the edge marked parallel promotes the
parent to `error` with message "child span failed" — the claim requires
the promotion for every selected child edge, sequential or parallel. -/
theorem error_propagation_skips_sequential_children :
    ((GenerateTraceFromTree c3SeqConfig emptyCardinalityManager zeroRng
        (List.replicate 16 0) 0).pairs.map fun pc =>
          (pc.1.status, pc.2.status)) =
      [(⟨.ok, ""⟩, ⟨.error, "connection timeout"⟩)] ∧
    ((GenerateTraceFromTree c3ParConfig emptyCardinalityManager zeroRng
        (List.replicate 16 0) 0).pairs.map fun pc =>
          (pc.1.status, pc.2.status)) =
      [(⟨.error, "child span failed"⟩, ⟨.error, "connection timeout"⟩)] :=
  ⟨by with_unfolding_all rfl, by with_unfolding_all rfl⟩

end XkTempo
